import Mathlib

/-!
# Verification development for the sqloxx persistence core

Shallow embedding of the sqloxx object-relational persistence core
(identity map, persistent-object state machine, nested-transaction
manager, `Handle`, `TableIterator`, engine-code translation) together
with theorems settling the specification claims about it.

Machine integers of the C++ source are modelled as `Int`/`Nat` with the
explicit numeric limits of the source (`Id` is `int`, the nesting level
is `int`); fallible code is modelled by returning the mutated state
together with an optional exception (`σ × Option Exc`), mirroring the
basic-guarantee style of the original.
-/

namespace Sqloxx

/-- Exception kinds of the sqloxx wrapper, taken from the source's
`sqloxx_exceptions.hpp` usage sites plus `std::logic_error`,
`std::bad_alloc` and a generic exception thrown by client-supplied
virtual functions (`do_load`, `do_save_new`, ...). `Hang` marks the
busy-wait `while (m_loading_status == loading)` in
`PersistentObject::load`, which never terminates single-threaded;
it is unreachable from well-formed states. -/
inductive Exc where
  | InvalidConnection
  | InvalidFilename
  | MultipleConnectionException
  | TransactionNestingException
  | UnresolvedTransactionException
  | UnboundHandleException
  | OverflowException
  | TableSizeException
  | BadIdentifier
  | LogicError
  | UninitializedOptionalException
  | BadAlloc
  | DerivedException
  | Hang
  | SQLiteException
  | SQLiteError
  | SQLiteInternal
  | SQLitePerm
  | SQLiteAbort
  | SQLiteBusy
  | SQLiteLocked
  | SQLiteNoMem
  | SQLiteReadOnly
  | SQLiteInterrupt
  | SQLiteIOErr
  | SQLiteCorrupt
  | SQLiteNotFound
  | SQLiteFull
  | SQLiteCantOpen
  | SQLiteProtocol
  | SQLiteEmpty
  | SQLiteSchema
  | SQLiteTooBig
  | SQLiteConstraint
  | SQLiteMismatch
  | SQLiteMisuse
  | SQLiteNoLFS
  | SQLiteAuth
  | SQLiteFormat
  | SQLiteRange
  | SQLiteNotADB
  | SQLiteUnknownErrorCode
deriving DecidableEq, Repr

/-- `typedef int Id;` from `id.hpp`: the primary-key / cache-key type is a
32-bit signed `int`. -/
abbrev Id := Int

/-- `std::numeric_limits<Id>::max()` for `Id = int`. -/
def idMax : Int := 2147483647

/-- `DatabaseConnection::s_max_nesting = INT_MAX` from
`database_connection.cpp`. -/
def maxNesting : Int := 2147483647

/-- The SQL transaction commands issued by the `unchecked_*` helpers of
`DatabaseConnection` (`database_connection.cpp`): `"begin"`, `"end"`
(the commit command), `"savepoint sp"`, `"release sp"`, `"rollback"`,
`"rollback to savepoint sp"`. -/
inductive TxCommand where
  | begin_
  | commit_
  | savepoint
  | release
  | rollback
  | rollbackToSavepoint
deriving DecidableEq, Repr

/-- Engine-visible state of one database connection: the transaction
nesting counter `m_transaction_nesting_level` of `DatabaseConnection`,
the rows of the root table (by primary key), the auto-increment
sequence value (greatest key ever assigned), the stack of transactional
snapshots held by the engine for open transactions/savepoints, and the
log of transaction commands issued to the engine. -/
structure DatabaseConnection where
  m_transaction_nesting_level : Int
  rows : List Id
  seq : Int
  snapshots : List (List Id × Int)
  trace : List TxCommand
deriving DecidableEq, Repr

/-- An engine model: which transaction commands fail when stepped.
`f c = true` means the engine returns an error code for command `c`,
surfaced by the statement wrapper as a `SQLiteError`-family exception. -/
abbrev Engine := TxCommand → Bool

/-- Effect of a successfully stepped transaction command on the engine
state (SQLite semantics of BEGIN/COMMIT/SAVEPOINT/RELEASE/ROLLBACK). -/
def applyTxCommand (c : TxCommand) (conn : DatabaseConnection) :
    DatabaseConnection :=
  match c with
  | .begin_ => { conn with snapshots := (conn.rows, conn.seq) :: conn.snapshots }
  | .savepoint => { conn with snapshots := (conn.rows, conn.seq) :: conn.snapshots }
  | .commit_ => { conn with snapshots := conn.snapshots.tail }
  | .release => { conn with snapshots := conn.snapshots.tail }
  | .rollback =>
    match conn.snapshots with
    | [] => conn
    | (r, s) :: rest => { conn with rows := r, seq := s, snapshots := rest }
  | .rollbackToSavepoint =>
    match conn.snapshots with
    | [] => conn
    | (r, s) :: _ => { conn with rows := r, seq := s }

/-- Step one transaction command (the `SQLStatement(...); statement.step()`
body shared by the `unchecked_*` helpers). The command is recorded in the
trace; on an engine error the exception surfaces and the engine state is
unchanged. -/
def execTxCommand (eng : Engine) (c : TxCommand) (conn : DatabaseConnection) :
    DatabaseConnection × Option Exc :=
  if eng c then ({ conn with trace := conn.trace ++ [c] }, some .SQLiteError)
  else ({ applyTxCommand c conn with trace := conn.trace ++ [c] }, none)

/-- `DatabaseConnection::begin_transaction` (`database_connection.cpp`
lines 148-169): at depth 0 issue BEGIN, at the maximum depth throw
`TransactionNestingException`, otherwise issue SAVEPOINT; on success
increment the nesting level. -/
def begin_transaction (eng : Engine) (conn : DatabaseConnection) :
    DatabaseConnection × Option Exc :=
  if conn.m_transaction_nesting_level = 0 then
    match execTxCommand eng .begin_ conn with
    | (c', none) =>
      ({ c' with m_transaction_nesting_level :=
          c'.m_transaction_nesting_level + 1 }, none)
    | (c', some e) => (c', some e)
  else if conn.m_transaction_nesting_level = maxNesting then
    (conn, some .TransactionNestingException)
  else
    match execTxCommand eng .savepoint conn with
    | (c', none) =>
      ({ c' with m_transaction_nesting_level :=
          c'.m_transaction_nesting_level + 1 }, none)
    | (c', some e) => (c', some e)

/-- `DatabaseConnection::end_transaction` (`database_connection.cpp`
lines 171-193): at depth 1 issue the commit command, at depth 0 throw
`TransactionNestingException`, otherwise issue RELEASE; on success
decrement the nesting level. -/
def end_transaction (eng : Engine) (conn : DatabaseConnection) :
    DatabaseConnection × Option Exc :=
  if conn.m_transaction_nesting_level = 1 then
    match execTxCommand eng .commit_ conn with
    | (c', none) =>
      ({ c' with m_transaction_nesting_level :=
          c'.m_transaction_nesting_level - 1 }, none)
    | (c', some e) => (c', some e)
  else if conn.m_transaction_nesting_level = 0 then
    (conn, some .TransactionNestingException)
  else
    match execTxCommand eng .release conn with
    | (c', none) =>
      ({ c' with m_transaction_nesting_level :=
          c'.m_transaction_nesting_level - 1 }, none)
    | (c', some e) => (c', some e)

/-- `DatabaseConnection::cancel_transaction` (`database_connection.cpp`
lines 195-217): at depth 1 issue ROLLBACK, at depth 0 throw
`TransactionNestingException`, otherwise issue ROLLBACK TO SAVEPOINT
followed by RELEASE; on success decrement the nesting level. -/
def cancel_transaction (eng : Engine) (conn : DatabaseConnection) :
    DatabaseConnection × Option Exc :=
  if conn.m_transaction_nesting_level = 1 then
    match execTxCommand eng .rollback conn with
    | (c', none) =>
      ({ c' with m_transaction_nesting_level :=
          c'.m_transaction_nesting_level - 1 }, none)
    | (c', some e) => (c', some e)
  else if conn.m_transaction_nesting_level = 0 then
    (conn, some .TransactionNestingException)
  else
    match execTxCommand eng .rollbackToSavepoint conn with
    | (c1, none) =>
      match execTxCommand eng .release c1 with
      | (c2, none) =>
        ({ c2 with m_transaction_nesting_level :=
            c2.m_transaction_nesting_level - 1 }, none)
      | (c2, some e) => (c2, some e)
    | (c1, some e) => (c1, some e)

/-! ## Transaction scope (`database_transaction.cpp`) -/

/-- `DatabaseTransaction`: the scoped transaction frame; `m_is_active`
is set by the constructor and cleared by a successful `commit()` or
`cancel()`. -/
structure DatabaseTransaction where
  m_is_active : Bool
deriving DecidableEq, Repr

/-- `DatabaseTransaction::DatabaseTransaction` (lines 37-47): call
`begin_transaction`, then mark the scope active. A failure of
`begin_transaction` propagates and no scope is produced. -/
def DatabaseTransaction.make (eng : Engine) (conn : DatabaseConnection) :
    (DatabaseTransaction × DatabaseConnection) × Option Exc :=
  match begin_transaction eng conn with
  | (c', none) => ((⟨true⟩, c'), none)
  | (c', some e) => ((⟨false⟩, c'), some e)

/-- `DatabaseTransaction::commit` (lines 77-106): on an active scope call
`end_transaction`, deactivating on success and translating any failure
into `UnresolvedTransactionException` (the scope stays active); on an
inactive scope throw `TransactionNestingException`. -/
def DatabaseTransaction.commit (eng : Engine) (t : DatabaseTransaction)
    (conn : DatabaseConnection) :
    (DatabaseTransaction × DatabaseConnection) × Option Exc :=
  if t.m_is_active then
    match end_transaction eng conn with
    | (c', none) => ((⟨false⟩, c'), none)
    | (c', some _) => ((t, c'), some .UnresolvedTransactionException)
  else ((t, conn), some .TransactionNestingException)

/-- `DatabaseTransaction::cancel` (lines 108-138): on an active scope call
`cancel_transaction`, deactivating on success and translating any failure
into `UnresolvedTransactionException`; on an inactive scope throw
`TransactionNestingException`. -/
def DatabaseTransaction.cancel (eng : Engine) (t : DatabaseTransaction)
    (conn : DatabaseConnection) :
    (DatabaseTransaction × DatabaseConnection) × Option Exc :=
  if t.m_is_active then
    match cancel_transaction eng conn with
    | (c', none) => ((⟨false⟩, c'), none)
    | (c', some _) => ((t, c'), some .UnresolvedTransactionException)
  else ((t, conn), some .TransactionNestingException)

/-- What the destructor of `DatabaseTransaction` did. -/
inductive DtorOutcome where
  | noop
  | cancelled
  | terminated
deriving DecidableEq, Repr

/-- `DatabaseTransaction::~DatabaseTransaction` (lines 49-75): if the
scope is still active, call `cancel_transaction`; a failure of that call
is caught and the program is terminated via `std::terminate` (outcome
`terminated`), so no exception ever leaves the destructor — the
`Option Exc` component of the result is the exception propagated to the
caller. -/
def DatabaseTransaction.dtor (eng : Engine) (t : DatabaseTransaction)
    (conn : DatabaseConnection) :
    (DatabaseConnection × DtorOutcome) × Option Exc :=
  if t.m_is_active then
    match cancel_transaction eng conn with
    | (c', none) => ((c', .cancelled), none)
    | (c', some _) => ((c', .terminated), none)
  else ((conn, .noop), none)

/-! ## Table iterator equality (`table_iterator.hpp`) -/

/-- The observable equality state of a `TableIterator<T>`: whether
`m_maybe_object` currently holds an instance of `T`. The held object is
abstracted as the primary key it was created from (`boost::optional<T>
m_maybe_object`). -/
structure TableIterator where
  m_maybe_object : Option Id
deriving DecidableEq, Repr

/-- `TableIterator::operator!=` (`table_iterator.hpp` lines 374-380):
`return m_maybe_object || rhs.m_maybe_object;`. -/
def TableIterator.neq (a b : TableIterator) : Bool :=
  a.m_maybe_object.isSome || b.m_maybe_object.isSome

/-- `TableIterator::operator==` (`table_iterator.hpp` lines 366-372):
`return !(*this != rhs);`. -/
def TableIterator.eq (a b : TableIterator) : Bool :=
  !(TableIterator.neq a b)

/-! ## Engine-code translation (`sqlite_dbconn.cpp`) -/

/-- State of a `SQLiteDBConn` relevant to `throw_on_failure`: whether the
raw connection pointer is non-null (`is_valid`), the engine's most
recently recorded error code for the connection (`sqlite3_errcode`), and
the engine's error message (`sqlite3_errmsg`, null modelled as `none`). -/
structure SQLiteDBConn where
  is_valid : Bool
  lastErrcode : Int
  errmsg : Option String
deriving DecidableEq, Repr

/-- The mapping from recognized non-success SQLite basic result codes to
the named sqloxx exception kinds, from the second `switch` of
`SQLiteDBConn::throw_on_failure` (`sqlite_dbconn.cpp` lines 165-193).
Unrecognized codes map to `SQLiteUnknownErrorCode` (the `default`). -/
def basicCodeExc (errcode : Int) : Exc :=
  if errcode = 1 then .SQLiteError
  else if errcode = 2 then .SQLiteInternal
  else if errcode = 3 then .SQLitePerm
  else if errcode = 4 then .SQLiteAbort
  else if errcode = 5 then .SQLiteBusy
  else if errcode = 6 then .SQLiteLocked
  else if errcode = 7 then .SQLiteNoMem
  else if errcode = 8 then .SQLiteReadOnly
  else if errcode = 9 then .SQLiteInterrupt
  else if errcode = 10 then .SQLiteIOErr
  else if errcode = 11 then .SQLiteCorrupt
  else if errcode = 12 then .SQLiteNotFound
  else if errcode = 13 then .SQLiteFull
  else if errcode = 14 then .SQLiteCantOpen
  else if errcode = 15 then .SQLiteProtocol
  else if errcode = 16 then .SQLiteEmpty
  else if errcode = 17 then .SQLiteSchema
  else if errcode = 18 then .SQLiteTooBig
  else if errcode = 19 then .SQLiteConstraint
  else if errcode = 20 then .SQLiteMismatch
  else if errcode = 21 then .SQLiteMisuse
  else if errcode = 22 then .SQLiteNoLFS
  else if errcode = 23 then .SQLiteAuth
  else if errcode = 24 then .SQLiteFormat
  else if errcode = 25 then .SQLiteRange
  else if errcode = 26 then .SQLiteNotADB
  else .SQLiteUnknownErrorCode

/-- The recognized non-success basic codes of the second `switch`
(SQLITE_ERROR = 1 through SQLITE_NOTADB = 26). -/
def recognizedBasicCodes : List Int :=
  [1, 2, 3, 4, 5, 6, 7, 8, 9, 10, 11, 12, 13, 14, 15, 16, 17, 18, 19, 20,
   21, 22, 23, 24, 25, 26]

/-- `SQLiteDBConn::throw_on_failure` (`sqlite_dbconn.cpp` lines 134-203):
invalid connection throws `InvalidConnection`; SQLITE_OK (0),
SQLITE_DONE (101) and SQLITE_ROW (100) return silently; a code differing
from the engine's most recent error code throws `std::logic_error`; a
null error message throws plain `SQLiteException`; otherwise the code is
translated through the named-exception switch. `none` means silent
return. -/
def throw_on_failure (conn : SQLiteDBConn) (errcode : Int) : Option Exc :=
  if !conn.is_valid then some .InvalidConnection
  else if errcode = 0 ∨ errcode = 101 ∨ errcode = 100 then none
  else if errcode ≠ conn.lastErrcode then some .LogicError
  else
    match conn.errmsg with
    | none => some .SQLiteException
    | some _ => some (basicCodeExc errcode)

/-! ## Handle counting (`handle.hpp`, `persistent_object.hpp`)

A world of `PersistentObject` instances managed by one identity map,
observed through the operations of `Handle<T>`. Objects are identified
by their cache key (every object managed by the map has one); handles
are identified by an arbitrary `Nat` tag standing for the C++ object
identity of the `Handle` instance. `handle_counter.hpp` is not among
the sources, so the counter's maximum is a parameter `hcMax`
(modelled from the spec: `handle_count` is a bounded non-negative
integer; `increment_handle_counter` throws `OverflowException` at the
maximum). -/

/-- The slice of `PersistentObject` state that handle counting
observes. -/
structure HObj where
  m_handle_counter : Nat
  has_id : Bool
deriving DecidableEq, Repr

/-- World state for the handle-counting model: the identity map's cached
objects (keyed by cache key), the set of live `Handle` instances with
their `m_pointer` (the cache key of the referent, or `none`), and the
map's `m_is_caching` flag. -/
structure HWorld where
  objs : List (Id × HObj)
  handles : List (Nat × Option Id)
  m_is_caching : Bool
deriving DecidableEq, Repr

/-- Look up the cached object with cache key `k`. -/
def HWorld.obj? (w : HWorld) (k : Id) : Option HObj :=
  (w.objs.find? (·.1 = k)).map (·.2)

/-- Replace the cached object at cache key `k`. -/
def HWorld.setObj (w : HWorld) (k : Id) (o : HObj) : HWorld :=
  { w with objs := w.objs.map (fun p => if p.1 = k then (k, o) else p) }

/-- `m_pointer` of the live handle tagged `h` (`none` when the handle is
null, and the outer `Option` is `none` when no such live handle
exists). -/
def HWorld.ptr? (w : HWorld) (h : Nat) : Option (Option Id) :=
  (w.handles.find? (·.1 = h)).map (·.2)

/-- Set `m_pointer` of the live handle tagged `h`. -/
def HWorld.setPtr (w : HWorld) (h : Nat) (p : Option Id) : HWorld :=
  { w with handles := w.handles.map (fun q => if q.1 = h then (h, p) else q) }

/-- Number of live `Handle` instances currently bound to the object with
cache key `k`. -/
def HWorld.boundCount (w : HWorld) (k : Id) : Nat :=
  (w.handles.filter (·.2 = some k)).length

/-- `PersistentObject::increment_handle_counter`
(`persistent_object.hpp` lines 1080-1094): throw `OverflowException` at
the counter's maximum, else increment. -/
def incrementHandleCounter (hcMax : Nat) (w : HWorld) (k : Id) :
    HWorld × Option Exc :=
  match w.obj? k with
  | none => (w, some .LogicError)
  | some o =>
    if o.m_handle_counter = hcMax then (w, some .OverflowException)
    else (w.setObj k { o with m_handle_counter := o.m_handle_counter + 1 }, none)

/-- `IdentityMap::uncache_object` as invoked from `notify_nil_handles`
(`identity_map.hpp` lines 739-751): when the object has no id or caching
is off, the object is erased from the cache (and destroyed). -/
def notifyNilHandles (w : HWorld) (k : Id) : HWorld :=
  match w.obj? k with
  | none => w
  | some o =>
    if !o.has_id || !w.m_is_caching then
      { w with objs := w.objs.filter (·.1 ≠ k) }
    else w

/-- `PersistentObject::decrement_handle_counter`
(`persistent_object.hpp` lines 1096-1123): at 1 the counter drops to 0
and the identity map is notified; at 0 nothing happens; otherwise
decrement. -/
def decrementHandleCounter (w : HWorld) (k : Id) : HWorld :=
  match w.obj? k with
  | none => w
  | some o =>
    match o.m_handle_counter with
    | 1 => notifyNilHandles (w.setObj k { o with m_handle_counter := 0 }) k
    | 0 => w
    | n + 1 => w.setObj k { o with m_handle_counter := n }

/-- `Handle<T>::Handle()` (line 345): a fresh null handle. -/
def handleNull (w : HWorld) (h : Nat) : HWorld × Option Exc :=
  ({ w with handles := w.handles ++ [(h, none)] }, none)

/-- The binding `Handle` constructors (`Handle(Connection&)`,
`Handle(Connection&, Id)`, `Handle(T*)` with non-null pointer, lines
350-368 and 480-483): the identity map supplies a pointer to the cached
object with cache key `k`, then `increment_handle_counter` runs; on
overflow the exception propagates and no handle is created. -/
def handleBind (hcMax : Nat) (w : HWorld) (h : Nat) (k : Id) :
    HWorld × Option Exc :=
  match incrementHandleCounter hcMax w k with
  | (w', none) => ({ w' with handles := w'.handles ++ [(h, some k)] }, none)
  | (w', some e) => (w', some e)

/-- `Handle<T>::Handle(Handle const&)` (lines 389-393): copy the pointer
and, when non-null, increment the referent's counter. -/
def handleCopyCtor (hcMax : Nat) (w : HWorld) (h src : Nat) :
    HWorld × Option Exc :=
  match w.ptr? src with
  | none => (w, some .LogicError)
  | some none => ({ w with handles := w.handles ++ [(h, none)] }, none)
  | some (some k) => handleBind hcMax w h k

/-- `Handle<T>::operator=(Handle const&)` (lines 395-410): unless
self-assigning, increment the right-hand referent's counter first
(strong guarantee), then decrement the old referent's, then copy the
pointer. -/
def handleCopyAssign (hcMax : Nat) (w : HWorld) (dst src : Nat) :
    HWorld × Option Exc :=
  if dst = src then (w, none)
  else
    match w.ptr? src, w.ptr? dst with
    | some rhsPtr, some oldPtr =>
      let step1 :=
        match rhsPtr with
        | some k => incrementHandleCounter hcMax w k
        | none => (w, none)
      match step1 with
      | (w1, some e) => (w1, some e)
      | (w1, none) =>
        let w2 := match oldPtr with
          | some k' => decrementHandleCounter w1 k'
          | none => w1
        (w2.setPtr dst rhsPtr, none)
    | _, _ => (w, some .LogicError)

/-- `Handle<T>::Handle(Handle&&)` (lines 412-417): take the source's
pointer and null the source; no counter is touched. -/
def handleMoveCtor (w : HWorld) (h src : Nat) : HWorld × Option Exc :=
  match w.ptr? src with
  | none => (w, some .LogicError)
  | some p =>
    (({ w with handles := w.handles ++ [(h, p)] }).setPtr src none, none)

/-- `Handle<T>::operator=(Handle&&)` (lines 419-429): unless
self-assigning, overwrite the pointer with the source's and null the
source; no counter is touched. -/
def handleMoveAssign (w : HWorld) (dst src : Nat) : HWorld × Option Exc :=
  if dst = src then (w, none)
  else
    match w.ptr? src with
    | none => (w, some .LogicError)
    | some p => ((w.setPtr dst p).setPtr src none, none)

/-- `Handle<T>::~Handle()` (lines 370-375): when non-null, decrement the
referent's counter; the handle ceases to be live. -/
def handleDestruct (w : HWorld) (h : Nat) : HWorld × Option Exc :=
  match w.ptr? h with
  | none => (w, some .LogicError)
  | some p =>
    let w1 := match p with
      | some k => decrementHandleCounter w k
      | none => w
    ({ w1 with handles := w1.handles.filter (·.1 ≠ h) }, none)

/-- `handle_cast<L>` (lines 485-520): start from a null handle; when the
source is non-null and the dynamic cast succeeds (`castOk`), point at the
same object and increment its counter (overflow propagates and the
result handle stays null as constructed). -/
def handleCast (hcMax : Nat) (w : HWorld) (h src : Nat) (castOk : Bool) :
    HWorld × Option Exc :=
  match w.ptr? src with
  | none => (w, some .LogicError)
  | some none => handleNull w h
  | some (some k) =>
    if castOk then handleBind hcMax w h k
    else handleNull w h

/-! ## Persistent objects and the identity map
(`persistent_object.hpp`, `identity_map.hpp`)

The identity map owns the objects: `cache` is `m_cache_key_map`
(cache key → object) and `idIndex` is `m_id_map`, with the shared-pointer
aliasing of the C++ represented by storing in `idIndex` the cache key of
the referenced object. The client-supplied virtual functions and the
engine are driven by an `env` of failure switches, so every catch branch
of the source is exercised. -/

/-- `PersistentObject::LoadingStatus`. -/
inductive LoadingStatus where
  | ghost
  | loading
  | loaded
deriving DecidableEq, Repr

/-- The `PersistentObject` base state plus one abstract derived-class
attribute `data` (standing for the lazy fields of the concrete type). -/
structure PObj where
  m_id : Option Id
  m_cache_key : Option Id
  m_loading_status : LoadingStatus
  data : Int
deriving DecidableEq, Repr

/-- World state: the identity map's two indexes and the database
connection. -/
structure World where
  cache : List (Id × PObj)
  idIndex : List (Id × Id)
  conn : DatabaseConnection
deriving DecidableEq, Repr

/-- Failure switches for the client-supplied virtual functions and
allocation: which of `do_load`, `do_save_existing`, `do_save_new`,
`do_remove` throw, and whether the `m_id_map.insert` inside
`register_id` hits `std::bad_alloc`. -/
structure Env where
  doLoadFails : Bool
  doSaveExistingFails : Bool
  doSaveNewFails : Bool
  doRemoveFails : Bool
  registerAllocFails : Bool
deriving DecidableEq, Repr

/-- The all-success environment. -/
def Env.ok : Env := ⟨false, false, false, false, false⟩

/-- The all-success engine. -/
def Engine.ok : Engine := fun _ => false

/-- Object cached under cache key `ck`. -/
def World.obj? (w : World) (ck : Id) : Option PObj :=
  (w.cache.find? (·.1 = ck)).map (·.2)

/-- Replace the object cached under cache key `ck`. -/
def World.setObj (w : World) (ck : Id) (o : PObj) : World :=
  { w with cache := w.cache.map (fun p => if p.1 = ck then (ck, o) else p) }

/-- `m_id_map` lookup: cache key of the object registered under id `i`. -/
def World.idIndex? (w : World) (i : Id) : Option Id :=
  (w.idIndex.find? (·.1 = i)).map (·.2)

/-- `PersistentObject::id` (line 1056): `jewel::value(m_id)`, throwing
`UninitializedOptionalException` on an uninitialized optional. -/
def PObj.idValue (o : PObj) : Except Exc Id :=
  match o.m_id with
  | none => .error .UninitializedOptionalException
  | some i => .ok i

/-- The object state after a successful new-object `save()`: id
recorded, status loaded (`persistent_object.hpp` lines 1018-1020). -/
def savedObj (o : PObj) (i : Id) : PObj :=
  { o with m_id := some i, m_loading_status := .loaded }

/-- `next_auto_key` (header not among the sources; modelled from the
spec: the next auto-increment value for the root table is one more than
the greatest primary key ever assigned — held by the engine's sequence —
and `TableSizeException` is raised when that successor would overflow
the `Id` type). -/
def next_auto_key (conn : DatabaseConnection) : Except Exc Id :=
  if conn.seq = idMax then .error .TableSizeException
  else .ok (conn.seq + 1)

/-- `PersistentObject::prospective_key` (lines 1134-1149): `LogicError`
when the object already has an id, else `next_auto_key`. -/
def prospective_key (o : PObj) (conn : DatabaseConnection) : Except Exc Id :=
  if o.m_id.isSome then .error .LogicError
  else next_auto_key conn

/-- `IdentityMap::partially_uncache_object` (`identity_map.hpp` lines
724-737): if the record cached under `ck` has an id, erase that id from
`m_id_map`; the record stays in `m_cache_key_map`. -/
def partially_uncache_object (w : World) (ck : Id) : World :=
  match w.obj? ck with
  | none => w
  | some o =>
    match o.m_id with
    | some i => { w with idIndex := w.idIndex.filter (·.1 ≠ i) }
    | none => w

/-- `IdentityMap::register_id` (`identity_map.hpp` lines 670-700): try to
insert `(p_id ↦ record at p_cache_key)` into `m_id_map`. If an entry
with `p_id` already exists (stale object from a cancelled outer
transaction), partially uncache the old object and clear its id, then
retry the insert. An actual node insertion may hit `std::bad_alloc`
(driven by `env.registerAllocFails`), which propagates. -/
def register_id (env : Env) (w : World) (ck i : Id) : World × Option Exc :=
  match w.idIndex? i with
  | some oldCk =>
    let w1 := partially_uncache_object w oldCk
    let w2 :=
      match w1.obj? oldCk with
      | none => w1
      | some oldObj => w1.setObj oldCk { oldObj with m_id := none }
    if env.registerAllocFails then (w2, some .BadAlloc)
    else ({ w2 with idIndex := w2.idIndex ++ [(i, ck)] }, none)
  | none =>
    if env.registerAllocFails then (w, some .BadAlloc)
    else ({ w with idIndex := w.idIndex ++ [(i, ck)] }, none)

/-- `IdentityMap::deregister_id` (`identity_map.hpp` lines 702-711):
erase `p_id` from `m_id_map`. -/
def deregister_id (w : World) (i : Id) : World :=
  { w with idIndex := w.idIndex.filter (·.1 ≠ i) }

/-- `PersistentObject::ghostify` (lines 1208-1216): run the (default
no-op) `do_ghostify`, then set the loading status to `ghost`. -/
def ghostify (w : World) (ck : Id) : World :=
  match w.obj? ck with
  | none => w
  | some o => w.setObj ck { o with m_loading_status := .ghost }

/-- The derived-class `do_load` (abstract): reads the object's row inside
the enclosing transaction and populates the lazy fields; fails when
`env.doLoadFails`. The reloaded attribute value is abstracted as leaving
`data` unchanged (the concrete value does not matter to the claims). -/
def do_load (env : Env) (w : World) (_ck : Id) : World × Option Exc :=
  if env.doLoadFails then (w, some .DerivedException) else (w, none)

/-- The derived-class `do_save_new` (abstract): one INSERT into the root
table; the engine assigns the next auto-increment key and advances the
sequence; fails when `env.doSaveNewFails`. -/
def do_save_new (env : Env) (w : World) (_ck : Id) : World × Option Exc :=
  if env.doSaveNewFails then (w, some .DerivedException)
  else
    ({ w with conn := { w.conn with
        rows := w.conn.rows ++ [w.conn.seq + 1],
        seq := w.conn.seq + 1 } }, none)

/-- The derived-class `do_save_existing` (abstract): UPDATEs of non-key
columns of the object's row; fails when `env.doSaveExistingFails`. -/
def do_save_existing (env : Env) (w : World) (_ck : Id) : World × Option Exc :=
  if env.doSaveExistingFails then (w, some .DerivedException) else (w, none)

/-- `PersistentObject::do_remove` (lines 1151-1169, default
implementation): one DELETE on the root table by the object's id;
fails when `env.doRemoveFails`. -/
def do_remove (env : Env) (w : World) (ck : Id) : World × Option Exc :=
  if env.doRemoveFails then (w, some .SQLiteError)
  else
    match w.obj? ck with
    | none => (w, some .LogicError)
    | some o =>
      match o.m_id with
      | none => (w, some .UninitializedOptionalException)
      | some i =>
        ({ w with conn := { w.conn with
            rows := w.conn.rows.filter (· ≠ i) } }, none)

/-- `PersistentObject::load` (lines 932-958): busy-wait while `loading`
(modelled as the `Hang` outcome; unreachable single-threaded); when the
object is a ghost with an id, open a transaction scope, mark `loading`,
run `do_load` and commit — on any failure `ghostify`, cancel the scope
and rethrow — then mark `loaded`. -/
def load (env : Env) (eng : Engine) (ck : Id) (w : World) :
    World × Option Exc :=
  match w.obj? ck with
  | none => (w, some .LogicError)
  | some o =>
    if o.m_loading_status = .loading then (w, some .Hang)
    else if o.m_loading_status = .ghost ∧ o.m_id.isSome then
      match DatabaseTransaction.make eng w.conn with
      | ((_, c'), some e) => ({ w with conn := c' }, some e)
      | ((t, c'), none) =>
        let w1 := ({ w with conn := c' }).setObj ck
          { o with m_loading_status := .loading }
        match do_load env w1 ck with
        | (w2, some e) =>
          let w3 := ghostify w2 ck
          match DatabaseTransaction.cancel eng t w3.conn with
          | ((_, c2), none) => ({ w3 with conn := c2 }, some e)
          | ((_, c2), some e') => ({ w3 with conn := c2 }, some e')
        | (w2, none) =>
          match DatabaseTransaction.commit eng t w2.conn with
          | ((t2, c2), none) =>
            match ({ w2 with conn := c2 }).obj? ck with
            | none => ({ w2 with conn := c2 }, some .LogicError)
            | some o2 =>
              let _ := t2
              (({ w2 with conn := c2 }).setObj ck
                { o2 with m_loading_status := .loaded }, none)
          | ((t2, c2), some e) =>
            let w3 := ghostify { w2 with conn := c2 } ck
            match DatabaseTransaction.cancel eng t2 w3.conn with
            | ((_, c3), none) => ({ w3 with conn := c3 }, some e)
            | ((_, c3), some e') => ({ w3 with conn := c3 }, some e')
    else (w, none)

/-- `PersistentObject::save` (lines 960-1022). With an id: `load()`,
then inside a fresh transaction scope `do_save_existing()` and commit —
on any failure `ghostify`, cancel, rethrow. Without an id: compute the
prospective key, open a scope, `do_save_new()`, `register_id`, commit —
a commit failure first explicitly deregisters the id; any failure inside
the scope then clears the in-memory id, cancels the scope and rethrows —
and on success record the allocated id on the object. Finally mark the
object `loaded`. -/
def save (env : Env) (eng : Engine) (ck : Id) (w : World) :
    World × Option Exc :=
  match w.obj? ck with
  | none => (w, some .LogicError)
  | some o =>
    if o.m_id.isSome then
      match load env eng ck w with
      | (w1, some e) => (w1, some e)
      | (w1, none) =>
        match DatabaseTransaction.make eng w1.conn with
        | ((_, c'), some e) => ({ w1 with conn := c' }, some e)
        | ((t, c'), none) =>
          let w2 := { w1 with conn := c' }
          match do_save_existing env w2 ck with
          | (w3, some e) =>
            let w4 := ghostify w3 ck
            match DatabaseTransaction.cancel eng t w4.conn with
            | ((_, c2), none) => ({ w4 with conn := c2 }, some e)
            | ((_, c2), some e') => ({ w4 with conn := c2 }, some e')
          | (w3, none) =>
            match DatabaseTransaction.commit eng t w3.conn with
            | ((_, c2), none) =>
              let w4 := { w3 with conn := c2 }
              match w4.obj? ck with
              | none => (w4, some .LogicError)
              | some o2 =>
                (w4.setObj ck { o2 with m_loading_status := .loaded }, none)
            | ((t2, c2), some e) =>
              let w4 := ghostify { w3 with conn := c2 } ck
              match DatabaseTransaction.cancel eng t2 w4.conn with
              | ((_, c3), none) => ({ w4 with conn := c3 }, some e)
              | ((_, c3), some e') => ({ w4 with conn := c3 }, some e')
    else
      match prospective_key o w.conn with
      | .error e => (w, some e)
      | .ok allocated =>
        match DatabaseTransaction.make eng w.conn with
        | ((_, c'), some e) => ({ w with conn := c' }, some e)
        | ((t, c'), none) =>
          let w1 := { w with conn := c' }
          -- outer try block
          let inner : World × Option Exc :=
            match do_save_new env w1 ck with
            | (w2, some e) => (w2, some e)
            | (w2, none) =>
              match register_id env w2 ck allocated with
              | (w3, some e) => (w3, some e)
              | (w3, none) =>
                -- inner try: commit; on failure deregister and rethrow
                match DatabaseTransaction.commit eng t w3.conn with
                | ((_, c2), none) => ({ w3 with conn := c2 }, none)
                | ((_, c2), some e) =>
                  (deregister_id { w3 with conn := c2 } allocated, some e)
          match inner with
          | (wi, some e) =>
            -- outer catch: clear m_id, cancel, rethrow
            let wj :=
              match wi.obj? ck with
              | none => wi
              | some oi => wi.setObj ck { oi with m_id := none }
            match DatabaseTransaction.cancel eng t wj.conn with
            | ((_, c2), none) => ({ wj with conn := c2 }, some e)
            | ((_, c2), some e') => ({ wj with conn := c2 }, some e')
          | (wi, none) =>
            match wi.obj? ck with
            | none => (wi, some .LogicError)
            | some oi =>
              (wi.setObj ck
                { oi with m_id := some allocated,
                          m_loading_status := .loaded }, none)

/-- `PersistentObject::remove` (lines 1024-1051): with no id, a no-op.
With an id: inside a fresh transaction scope run `do_remove()` and
commit — on any failure `ghostify`, cancel, rethrow — then on success
partially uncache the object (erase from `m_id_map` only) and clear the
in-memory id. -/
def remove (env : Env) (eng : Engine) (ck : Id) (w : World) :
    World × Option Exc :=
  match w.obj? ck with
  | none => (w, some .LogicError)
  | some o =>
    if o.m_id.isSome then
      match DatabaseTransaction.make eng w.conn with
      | ((_, c'), some e) => ({ w with conn := c' }, some e)
      | ((t, c'), none) =>
        let w1 := { w with conn := c' }
        match do_remove env w1 ck with
        | (w2, some e) =>
          let w3 := ghostify w2 ck
          match DatabaseTransaction.cancel eng t w3.conn with
          | ((_, c2), none) => ({ w3 with conn := c2 }, some e)
          | ((_, c2), some e') => ({ w3 with conn := c2 }, some e')
        | (w2, none) =>
          match DatabaseTransaction.commit eng t w2.conn with
          | ((_, c2), none) =>
            let w3 := partially_uncache_object { w2 with conn := c2 } ck
            match w3.obj? ck with
            | none => (w3, some .LogicError)
            | some o2 => (w3.setObj ck { o2 with m_id := none }, none)
          | ((t2, c2), some e) =>
            let w3 := ghostify { w2 with conn := c2 } ck
            match DatabaseTransaction.cancel eng t2 w3.conn with
            | ((_, c3), none) => ({ w3 with conn := c3 }, some e)
            | ((_, c3), some e') => ({ w3 with conn := c3 }, some e')
    else (w, none)

/-- A derived-class getter, per the required pattern (`load()` as the
first statement, then return the attribute). -/
def getter (env : Env) (eng : Engine) (ck : Id) (w : World) :
    (World × Option Exc) × Option Int :=
  match load env eng ck w with
  | (w1, some e) => ((w1, some e), none)
  | (w1, none) => ((w1, none), (w1.obj? ck).map (·.data))

/-! ## Cache-key allocation (`identity_map.hpp` lines 803-850)

`provide_cache_key` works on the ordered key set of `m_cache_key_map`,
modelled as the strictly sorted list `keys`, together with
`m_last_cache_key`. The C++ `while` loop walks an iterator through the
ordered map in lockstep with the candidate key; it is modelled with
explicit fuel (`none` on exhaustion, which is proved unreachable from
well-formed states). -/

/-- `std::numeric_limits<CacheKey>::max()` for `CacheKey = Id = int`. -/
def ckMax : Int := 2147483647

/-- The candidate-key successor used inside the loop:
`if (ret == maximum) ret = 1; else ++ret;`. -/
def wrapSucc (r : Int) : Int := if r = ckMax then 1 else r + 1

/-- The `while (ret == it->first)` loop of `provide_cache_key`: `i` is
the iterator's position in the ordered key list; when the incremented
iterator reaches the end it wraps to the beginning. Returns the final
`ret`, or `none` when the fuel runs out. -/
def provideCacheKeyLoop (keys : List Int) :
    Nat → Int → Nat → Option Int
  | 0, _, _ => none
  | fuel + 1, ret, i =>
    match keys.get? i with
    | none => none
    | some k =>
      if ret = k then
        provideCacheKeyLoop keys fuel (wrapSucc ret)
          (if i + 1 = keys.length then 0 else i + 1)
      else some ret

/-- `IdentityMap::provide_cache_key` (`identity_map.hpp` lines 803-850):
an empty map yields 1; a map of maximum size raises
`OverflowException`; otherwise start from `m_last_cache_key` — if it is
not a key in use, return it unchanged — and run the lockstep scan for
the next free key, assigning the result to `m_last_cache_key`. The
result pairs the returned key with the updated `m_last_cache_key`;
the outer `none` is fuel exhaustion of the loop model. -/
def provide_cache_key (keys : List Int) (last : Int) :
    Option (Except Exc (Int × Int)) :=
  if keys.length = 0 then some (.ok (1, 1))
  else if (keys.length : Int) = ckMax then some (.error .OverflowException)
  else
    match keys.findIdx? (· = last) with
    | none => some (.ok (last, last))
    | some i =>
      match provideCacheKeyLoop keys (keys.length + 1) last i with
      | none => none
      | some r => some (.ok (r, r))

/-- The specification's description of the scan ("starting from
`last_cache_key`, scan forward (wrapping at the limit) through
`by_cache_key` until the first gap is found"), as a direct generate-and
-test: try `last`, then its wrapped successors, returning the first
value not currently a key in use. Fueled; the code's loop is proved to
refine this. -/
def firstFreeKeyScan (keys : List Int) : Nat → Int → Option Int
  | 0, _ => none
  | fuel + 1, ret =>
    if ret ∈ keys then firstFreeKeyScan keys fuel (wrapSucc ret)
    else some ret

/-- The `j`-th candidate key visited by the scan when started at `r`
(verification support for relating the two scans). -/
def scanCand : Nat → Int → Int
  | 0, r => r
  | j + 1, r => scanCand j (wrapSucc r)

/-- Closed form of `scanCand`: addition on the cyclic range
`[1, ckMax]`. -/
def wadd (r : Int) (j : Nat) : Int :=
  if r + j ≤ ckMax then r + j else r + j - ckMax

/-! ## Theorems -/

section AssocListLemmas

variable {β : Type}

/-- Updating the entry at key `k` makes a later lookup of `k` return the
new value, provided an entry at `k` exists. -/
theorem find?_update_self (l : List (Id × β)) (k : Id) (b' : β)
    (h : ((l.find? (fun p => p.1 = k)).map (·.2)).isSome) :
    (((l.map (fun p => if p.1 = k then (k, b') else p)).find?
      (fun p => p.1 = k)).map (·.2)) = some b' := by
  induction l with
  | nil => simp at h
  | cons a tl ih =>
    by_cases ha : a.1 = k
    · simp [List.find?_cons, ha]
    · rw [List.find?_cons_of_neg _ (by simp [ha])] at h
      simp only [List.map_cons]
      rw [if_neg ha, List.find?_cons_of_neg _ (by simp [ha])]
      exact ih h

/-- Updating the entry at key `k` leaves lookups of other keys
unchanged. -/
theorem find?_update_ne (l : List (Id × β)) (k k' : Id) (b' : β)
    (hne : k' ≠ k) :
    (((l.map (fun p => if p.1 = k then (k, b') else p)).find?
      (fun p => p.1 = k')).map (·.2)) =
    ((l.find? (fun p => p.1 = k')).map (·.2)) := by
  induction l with
  | nil => simp
  | cons a tl ih =>
    by_cases ha : a.1 = k
    · rw [List.map_cons, if_pos ha,
        List.find?_cons_of_neg _ (by simp [Ne.symm hne]),
        List.find?_cons_of_neg _ (by simp [ha, Ne.symm hne])]
      exact ih
    · by_cases ha' : a.1 = k'
      · rw [List.map_cons, if_neg ha, List.find?_cons_of_pos _ (by simp [ha']),
          List.find?_cons_of_pos _ (by simp [ha'])]
      · rw [List.map_cons, if_neg ha,
          List.find?_cons_of_neg _ (by simp [ha']),
          List.find?_cons_of_neg _ (by simp [ha'])]
        exact ih

/-- After filtering out key `i`, a lookup of `i` finds nothing. -/
theorem find?_filter_self_none (l : List (Id × β)) (i : Id) :
    ((l.filter (fun p => p.1 ≠ i)).find? (fun p => p.1 = i)) = none := by
  rw [List.find?_eq_none]
  intro p hp
  have := (List.mem_filter.mp hp).2
  simpa using this

/-- Filtering out key `i` leaves lookups of other keys unchanged. -/
theorem find?_filter_ne (l : List (Id × β)) (i k : Id) (hne : k ≠ i) :
    ((l.filter (fun p => p.1 ≠ i)).find? (fun p => p.1 = k)) =
    (l.find? (fun p => p.1 = k)) := by
  induction l with
  | nil => simp
  | cons a tl ih =>
    by_cases ha : a.1 = i
    · rw [List.filter_cons_of_neg (by simp [ha]),
        List.find?_cons_of_neg _ (by simp [ha, Ne.symm hne])]
      exact ih
    · by_cases ha' : a.1 = k
      · rw [List.filter_cons_of_pos (by simp [ha]),
          List.find?_cons_of_pos _ (by simp [ha']),
          List.find?_cons_of_pos _ (by simp [ha'])]
      · rw [List.filter_cons_of_pos (by simp [ha]),
          List.find?_cons_of_neg _ (by simp [ha']),
          List.find?_cons_of_neg _ (by simp [ha'])]
        exact ih

/-- Appending an entry at key `i` to a list without an entry at `i`
makes a lookup of `i` find it. -/
theorem find?_append_self (l : List (Id × β)) (i : Id) (b : β)
    (h : (l.find? (fun p => p.1 = i)) = none) :
    (((l ++ [(i, b)]).find? (fun p => p.1 = i)).map (·.2)) = some b := by
  induction l with
  | nil => simp
  | cons a tl ih =>
    by_cases ha : a.1 = i
    · rw [List.find?_cons_of_pos _ (by simp [ha])] at h
      simp at h
    · rw [List.find?_cons_of_neg _ (by simp [ha])] at h
      rw [List.cons_append, List.find?_cons_of_neg _ (by simp [ha])]
      exact ih h

/-- The key of an entry is unchanged by the update-at-`k` map, so the
key-lookup predicate composed with the update is the predicate itself.
Lets `List.find?_map` reductions go through. -/
theorem comp_update_pred (k k' : Id) (b' : β) :
    ((fun x : Id × β => decide (x.1 = k')) ∘
      (fun p : Id × β => if p.1 = k then (k, b') else p)) =
    (fun p : Id × β => decide (p.1 = k')) := by
  funext p
  by_cases h : p.1 = k <;> simp [h]

/-- A successful keyed lookup returns the entry whose key is the one
sought. -/
theorem find?_eq_entry (l : List (Id × β)) (k : Id) (b : β)
    (h : (l.find? (fun p => p.1 = k)).map (·.2) = some b) :
    l.find? (fun p => p.1 = k) = some (k, b) := by
  rcases hf : l.find? (fun p => p.1 = k) with _ | pair
  · rw [hf] at h
    simp at h
  · have hp := List.find?_some hf
    rcases pair with ⟨a, c⟩
    simp only [decide_eq_true_eq] at hp
    rw [hf] at h
    simp at h
    subst hp
    subst h
    exact hf

/-- `find?_filter_self_none` restated with the boolean-negation form of
the filter predicate that `simp` normalization produces. -/
theorem find?_filter_self_none_bang (l : List (Id × β)) (i : Id) :
    ((l.filter (fun p => !decide (p.1 = i))).find?
      (fun p => decide (p.1 = i))) = none := by
  rw [List.find?_eq_none]
  intro p hp
  have := (List.mem_filter.mp hp).2
  simpa using this

end AssocListLemmas

/-- `World.obj?` after `World.setObj` at the same key. -/
theorem World.obj?_setObj_self (w : World) (ck : Id) (o o' : PObj)
    (h : w.obj? ck = some o) :
    (w.setObj ck o').obj? ck = some o' := by
  have : ((w.cache.find? (fun p => p.1 = ck)).map (·.2)).isSome := by
    simp only [World.obj?] at h
    simp [h]
  simpa [World.obj?, World.setObj] using
    find?_update_self w.cache ck o' this

/-- `World.idIndex?` after erasing id `i` from the id index. -/
theorem World.idIndex?_erase_self (idx : List (Id × Id)) (cache : List (Id × PObj))
    (conn : DatabaseConnection) (i : Id) :
    (World.idIndex? ⟨cache, idx.filter (fun p => p.1 ≠ i), conn⟩ i) = none := by
  simp [World.idIndex?, find?_filter_self_none]

/-- Claim C9: for every pair of `TableIterator`s, `a == b` returns true
iff neither holds an object; a non-null iterator compares unequal to
every iterator, including itself, even when both hold the same row; and
`a != b` is always the negation of `a == b`. -/
theorem tableIterator_equality_spec (a b : TableIterator) (x : Id) :
    (TableIterator.eq a b = true ↔
      a.m_maybe_object = none ∧ b.m_maybe_object = none)
    ∧ TableIterator.neq a b = !TableIterator.eq a b
    ∧ TableIterator.eq ⟨some x⟩ ⟨some x⟩ = false := by
  refine ⟨?_, ?_, ?_⟩
  · cases a with
    | mk ma =>
      cases b with
      | mk mb =>
        cases ma <;> cases mb <;>
          simp [TableIterator.eq, TableIterator.neq]
  · simp [TableIterator.eq]
  · simp [TableIterator.eq, TableIterator.neq]

/-- Claim C10: the `DatabaseTransaction` destructor is a no-op when the
scope was already deactivated by `commit()` or `cancel()`; on a
still-active scope it invokes `cancel_transaction`, ending the program
(`terminated`) rather than raising when the underlying cancel fails;
and in every case it propagates no exception. -/
theorem databaseTransaction_dtor_spec (eng : Engine)
    (t : DatabaseTransaction) (conn : DatabaseConnection) :
    (DatabaseTransaction.dtor eng t conn).2 = none
    ∧ (t.m_is_active = false →
        DatabaseTransaction.dtor eng t conn = ((conn, .noop), none))
    ∧ (t.m_is_active = true →
        (DatabaseTransaction.dtor eng t conn).1.1 =
          (cancel_transaction eng conn).1
        ∧ ((cancel_transaction eng conn).2 = none →
            (DatabaseTransaction.dtor eng t conn).1.2 = .cancelled)
        ∧ (∀ e, (cancel_transaction eng conn).2 = some e →
            (DatabaseTransaction.dtor eng t conn).1.2 = .terminated))
    ∧ (∀ t' c',
        DatabaseTransaction.commit eng t conn = ((t', c'), none) →
        DatabaseTransaction.dtor eng t' c' = ((c', .noop), none))
    ∧ (∀ t' c',
        DatabaseTransaction.cancel eng t conn = ((t', c'), none) →
        DatabaseTransaction.dtor eng t' c' = ((c', .noop), none)) := by
  refine ⟨?_, ?_, ?_, ?_, ?_⟩
  · cases ht : t.m_is_active <;>
      simp only [DatabaseTransaction.dtor, ht, Bool.false_eq_true,
        if_false, if_true]
    · rcases hc : cancel_transaction eng conn with ⟨c', e⟩
      cases e <;> simp
  · intro ht
    simp [DatabaseTransaction.dtor, ht]
  · intro ht
    refine ⟨?_, ?_, ?_⟩
    · simp only [DatabaseTransaction.dtor, ht, if_true]
      rcases hc : cancel_transaction eng conn with ⟨c', e⟩
      cases e <;> simp
    · intro hc
      simp only [DatabaseTransaction.dtor, ht, if_true]
      rcases hc2 : cancel_transaction eng conn with ⟨c', e⟩
      rw [hc2] at hc
      cases e <;> simp_all
    · intro e hc
      simp only [DatabaseTransaction.dtor, ht, if_true]
      rcases hc2 : cancel_transaction eng conn with ⟨c', e'⟩
      rw [hc2] at hc
      cases e' <;> simp_all
  · intro t' c' h
    cases ht : t.m_is_active <;>
      simp only [DatabaseTransaction.commit, ht, Bool.false_eq_true,
        if_false, if_true] at h
    · simp at h
    · rcases he : end_transaction eng conn with ⟨c2, e⟩
      rw [he] at h
      cases e with
      | some e => simp at h
      | none =>
        simp only [Prod.mk.injEq] at h
        obtain ⟨⟨h1, h2⟩, -⟩ := h
        subst h1
        subst h2
        simp [DatabaseTransaction.dtor]
  · intro t' c' h
    cases ht : t.m_is_active <;>
      simp only [DatabaseTransaction.cancel, ht, Bool.false_eq_true,
        if_false, if_true] at h
    · simp at h
    · rcases he : cancel_transaction eng conn with ⟨c2, e⟩
      rw [he] at h
      cases e with
      | some e => simp at h
      | none =>
        simp only [Prod.mk.injEq] at h
        obtain ⟨⟨h1, h2⟩, -⟩ := h
        subst h1
        subst h2
        simp [DatabaseTransaction.dtor]

/-- Witness for the C10 theorem at a concrete scope and connection. -/
theorem databaseTransaction_dtor_spec_witness :
    DatabaseTransaction.dtor Engine.ok ⟨false⟩ ⟨0, [], 0, [], []⟩ =
      ((⟨0, [], 0, [], []⟩, .noop), none) :=
  (databaseTransaction_dtor_spec Engine.ok ⟨false⟩
    ⟨0, [], 0, [], []⟩).2.1 rfl

/-- Claim C8: `Handle` copy assignment increments the right-hand
referent's counter before decrementing the old referent's, so an
`OverflowException` from the increment leaves both handles and both
counters untouched, and self-assignment changes nothing. -/
theorem handle_copy_assign_spec (hcMax : Nat) (w : HWorld) (dst src : Nat) :
    (dst = src → handleCopyAssign hcMax w dst src = (w, none))
    ∧ (∀ k o pd, dst ≠ src →
        w.ptr? src = some (some k) →
        w.ptr? dst = some pd →
        w.obj? k = some o →
        o.m_handle_counter = hcMax →
        handleCopyAssign hcMax w dst src = (w, some .OverflowException)) := by
  constructor
  · intro h
    simp [handleCopyAssign, h]
  · intro k o pd hne hsrc hdst hobj hcnt
    simp only [handleCopyAssign, if_neg hne, hsrc, hdst,
      incrementHandleCounter, hobj, if_pos hcnt]

/-- Witness for the C8 theorem: a world with one object at counter 2
(`hcMax = 2`) and two handles bound to it; self-assignment of handle 0
and copy assignment of handle 1 onto handle 0 both leave the world
unchanged, the latter with `OverflowException`. -/
theorem handle_copy_assign_spec_witness :
    handleCopyAssign 2 ⟨[(1, ⟨2, false⟩)], [(0, some 1), (1, some 1)], false⟩
        0 0 =
      (⟨[(1, ⟨2, false⟩)], [(0, some 1), (1, some 1)], false⟩, none)
    ∧ handleCopyAssign 2
        ⟨[(1, ⟨2, false⟩)], [(0, some 1), (1, some 1)], false⟩ 0 1 =
      (⟨[(1, ⟨2, false⟩)], [(0, some 1), (1, some 1)], false⟩,
        some .OverflowException) :=
  ⟨(handle_copy_assign_spec 2
      ⟨[(1, ⟨2, false⟩)], [(0, some 1), (1, some 1)], false⟩ 0 0).1 rfl,
   (handle_copy_assign_spec 2
      ⟨[(1, ⟨2, false⟩)], [(0, some 1), (1, some 1)], false⟩ 0 1).2
      1 ⟨2, false⟩ (some 1) (by decide) (by decide) (by decide) (by decide)
      rfl⟩

/-- Claim C1 is contradicted by the code: after binding handle 1 to the
object with cache key 1, copy-constructing handle 2 from it (counter 2)
and then move-assigning handle 1 from handle 2, only one live handle is
bound to the object but its `handle_count` is still 2 — move assignment
overwrites the target's pointer without decrementing the old referent's
counter (`handle.hpp` lines 419-429). -/
theorem handle_move_assign_leaves_stale_count :
    (handleMoveAssign
      (handleCopyCtor 64 (handleBind 64 ⟨[(1, ⟨0, false⟩)], [], false⟩ 1 1).1
        2 1).1 1 2).2 = none
    ∧ ((handleMoveAssign
        (handleCopyCtor 64 (handleBind 64 ⟨[(1, ⟨0, false⟩)], [], false⟩ 1 1).1
          2 1).1 1 2).1.obj? 1).map (·.m_handle_counter) = some 2
    ∧ (handleMoveAssign
        (handleCopyCtor 64 (handleBind 64 ⟨[(1, ⟨0, false⟩)], [], false⟩ 1 1).1
          2 1).1 1 2).1.boundCount 1 = 1 := by
  decide

/-- Claim C7: on a valid connection, `throw_on_failure` returns silently
for OK (0), ROW (100) and DONE (101); raises a logic error when the
passed code differs from the engine's most recent error code; maps every
recognized non-success basic code 1-to-1 to its named error kind; and
raises the unknown-code error for unrecognized codes. -/
theorem throw_on_failure_spec (conn : SQLiteDBConn) (errcode : Int)
    (m : String) (hv : conn.is_valid = true) :
    ((errcode = 0 ∨ errcode = 101 ∨ errcode = 100) →
      throw_on_failure conn errcode = none)
    ∧ (¬(errcode = 0 ∨ errcode = 101 ∨ errcode = 100) →
        errcode ≠ conn.lastErrcode →
        throw_on_failure conn errcode = some .LogicError)
    ∧ (errcode ∈ recognizedBasicCodes → errcode = conn.lastErrcode →
        conn.errmsg = some m →
        throw_on_failure conn errcode = some (basicCodeExc errcode)
        ∧ basicCodeExc errcode ≠ .SQLiteUnknownErrorCode)
    ∧ (¬(errcode = 0 ∨ errcode = 101 ∨ errcode = 100) →
        errcode ∉ recognizedBasicCodes → errcode = conn.lastErrcode →
        conn.errmsg = some m →
        throw_on_failure conn errcode = some .SQLiteUnknownErrorCode)
    ∧ (∀ a ∈ recognizedBasicCodes, ∀ b ∈ recognizedBasicCodes,
        basicCodeExc a = basicCodeExc b → a = b) := by
  refine ⟨?_, ?_, ?_, ?_, ?_⟩
  · intro h
    simp [throw_on_failure, hv, h]
  · intro h hne
    simp [throw_on_failure, hv, h, hne]
  · intro hmem hlast hmsg
    have hb : (1 : Int) ≤ errcode ∧ errcode ≤ 26 := by
      have hall : ∀ a ∈ recognizedBasicCodes, (1 : Int) ≤ a ∧ a ≤ 26 := by
        decide
      exact hall errcode hmem
    have hne : ¬(errcode = 0 ∨ errcode = 101 ∨ errcode = 100) := by omega
    constructor
    · subst hlast
      simp [throw_on_failure, hv, hne, hmsg]
    · have hall : ∀ a ∈ recognizedBasicCodes,
          basicCodeExc a ≠ Exc.SQLiteUnknownErrorCode := by decide
      exact hall errcode hmem
  · intro hne hnotmem hlast hmsg
    have hout : basicCodeExc errcode = .SQLiteUnknownErrorCode := by
      simp only [recognizedBasicCodes, List.mem_cons,
        List.not_mem_nil, or_false] at hnotmem
      push_neg at hnotmem
      obtain ⟨n1, n2, n3, n4, n5, n6, n7, n8, n9, n10, n11, n12, n13, n14,
        n15, n16, n17, n18, n19, n20, n21, n22, n23, n24, n25, n26⟩ :=
        hnotmem
      simp [basicCodeExc, n1, n2, n3, n4, n5, n6, n7, n8, n9, n10, n11,
        n12, n13, n14, n15, n16, n17, n18, n19, n20, n21, n22, n23, n24,
        n25, n26]
    rw [← hout]
    subst hlast
    simp [throw_on_failure, hv, hne, hmsg]
  · have hnd : (recognizedBasicCodes.map basicCodeExc).Nodup := by decide
    exact fun a ha b hb h => List.inj_on_of_nodup_map hnd ha hb h

/-- Witness for the C7 theorem at SQLITE_BUSY (code 5) on a valid
connection whose last error code is 5. -/
theorem throw_on_failure_spec_witness :
    throw_on_failure ⟨true, 5, some "busy"⟩ 5 = some (basicCodeExc 5)
    ∧ basicCodeExc 5 ≠ .SQLiteUnknownErrorCode :=
  (throw_on_failure_spec ⟨true, 5, some "busy"⟩ 5 "busy" rfl).2.2.1
    (by decide) rfl rfl

/-- Claim C4: for every nesting depth `d` of a connection,
`begin_transaction` issues BEGIN at `d = 0`, SAVEPOINT at `d ≥ 1`, and
raises `TransactionNesting` at the process-wide maximum, otherwise
incrementing the depth; `end_transaction` raises `TransactionNesting`
at `d = 0`, issues the commit command at `d = 1` and RELEASE at
`d ≥ 2`, decrementing the depth on success; `cancel_transaction` raises
`TransactionNesting` at `d = 0`, issues ROLLBACK at `d = 1` and
ROLLBACK TO SAVEPOINT followed by RELEASE at `d ≥ 2`, decrementing the
depth on success. -/
theorem transaction_depth_commands (eng : Engine) (d : Int) (rows : List Id)
    (seq : Int) (snaps : List (List Id × Int)) :
    (d = 0 → eng .begin_ = false →
      (begin_transaction eng ⟨d, rows, seq, snaps, []⟩).2 = none
      ∧ (begin_transaction eng
          ⟨d, rows, seq, snaps, []⟩).1.m_transaction_nesting_level = d + 1
      ∧ (begin_transaction eng ⟨d, rows, seq, snaps, []⟩).1.trace =
          [.begin_])
    ∧ (1 ≤ d → d < maxNesting → eng .savepoint = false →
        (begin_transaction eng ⟨d, rows, seq, snaps, []⟩).2 = none
        ∧ (begin_transaction eng
            ⟨d, rows, seq, snaps, []⟩).1.m_transaction_nesting_level = d + 1
        ∧ (begin_transaction eng ⟨d, rows, seq, snaps, []⟩).1.trace =
            [.savepoint])
    ∧ (d = maxNesting →
        begin_transaction eng ⟨d, rows, seq, snaps, []⟩ =
          (⟨d, rows, seq, snaps, []⟩, some .TransactionNestingException))
    ∧ (d = 0 →
        end_transaction eng ⟨d, rows, seq, snaps, []⟩ =
          (⟨d, rows, seq, snaps, []⟩, some .TransactionNestingException))
    ∧ (d = 1 → eng .commit_ = false →
        (end_transaction eng ⟨d, rows, seq, snaps, []⟩).2 = none
        ∧ (end_transaction eng
            ⟨d, rows, seq, snaps, []⟩).1.m_transaction_nesting_level = d - 1
        ∧ (end_transaction eng ⟨d, rows, seq, snaps, []⟩).1.trace =
            [.commit_])
    ∧ (2 ≤ d → eng .release = false →
        (end_transaction eng ⟨d, rows, seq, snaps, []⟩).2 = none
        ∧ (end_transaction eng
            ⟨d, rows, seq, snaps, []⟩).1.m_transaction_nesting_level = d - 1
        ∧ (end_transaction eng ⟨d, rows, seq, snaps, []⟩).1.trace =
            [.release])
    ∧ (d = 0 →
        cancel_transaction eng ⟨d, rows, seq, snaps, []⟩ =
          (⟨d, rows, seq, snaps, []⟩, some .TransactionNestingException))
    ∧ (d = 1 → eng .rollback = false →
        (cancel_transaction eng ⟨d, rows, seq, snaps, []⟩).2 = none
        ∧ (cancel_transaction eng
            ⟨d, rows, seq, snaps, []⟩).1.m_transaction_nesting_level = d - 1
        ∧ (cancel_transaction eng ⟨d, rows, seq, snaps, []⟩).1.trace =
            [.rollback])
    ∧ (2 ≤ d → eng .rollbackToSavepoint = false → eng .release = false →
        (cancel_transaction eng ⟨d, rows, seq, snaps, []⟩).2 = none
        ∧ (cancel_transaction eng
            ⟨d, rows, seq, snaps, []⟩).1.m_transaction_nesting_level = d - 1
        ∧ (cancel_transaction eng ⟨d, rows, seq, snaps, []⟩).1.trace =
            [.rollbackToSavepoint, .release]) := by
  refine ⟨?_, ?_, ?_, ?_, ?_, ?_, ?_, ?_, ?_⟩
  · intro hd he
    subst hd
    simp [begin_transaction, execTxCommand, applyTxCommand, he]
  · intro h1 h2 he
    have hd0 : d ≠ 0 := by omega
    have hdm : d ≠ maxNesting := by omega
    simp [begin_transaction, execTxCommand, applyTxCommand, he, hd0, hdm]
  · intro hd
    subst hd
    have h1 : maxNesting ≠ 0 := by simp [maxNesting]
    simp [begin_transaction, h1]
  · intro hd
    subst hd
    simp [end_transaction]
  · intro hd he
    subst hd
    simp [end_transaction, execTxCommand, applyTxCommand, he]
  · intro h2 he
    have hd1 : d ≠ 1 := by omega
    have hd0 : d ≠ 0 := by omega
    simp [end_transaction, execTxCommand, applyTxCommand, he, hd1, hd0]
  · intro hd
    subst hd
    simp [cancel_transaction]
  · intro hd he
    subst hd
    cases snaps <;>
      simp [cancel_transaction, execTxCommand, applyTxCommand, he]
  · intro h2 he1 he2
    have hd1 : d ≠ 1 := by omega
    have hd0 : d ≠ 0 := by omega
    cases snaps <;>
      simp [cancel_transaction, execTxCommand, applyTxCommand, he1, he2,
        hd1, hd0]

/-- Witness for the C4 theorem at depth 1 with the all-success engine:
`end_transaction` issues the commit command and returns to depth 0. -/
theorem transaction_depth_commands_witness :
    (end_transaction Engine.ok ⟨1, [7], 7, [([], 0)], []⟩).2 = none
    ∧ (end_transaction Engine.ok
        ⟨1, [7], 7, [([], 0)], []⟩).1.m_transaction_nesting_level = 0
    ∧ (end_transaction Engine.ok ⟨1, [7], 7, [([], 0)], []⟩).1.trace =
        [.commit_] :=
  (transaction_depth_commands Engine.ok 1 [7] 7 [([], 0)]).2.2.2.2.1
    rfl rfl

/-- Claim C6: `remove()` on an object with no id does nothing; with an
id it deletes the row inside a transaction and, on success, erases the
id from `by_id` while keeping the object in `by_cache_key`, clears the
in-memory id (so `id()` then raises `Uninitialized`) and leaves every
other attribute unaltered (a getter still returns the last value set);
if `do_remove()` or the commit throws, the object is ghostified and the
transaction cancelled, with the id, the indexes and the rows
unchanged. -/
theorem remove_spec (env : Env) (eng : Engine) (ck : Id)
    (cache : List (Id × PObj)) (idIdx : List (Id × Id)) (rows : List Id)
    (seq : Int) (tr : List TxCommand) (o : PObj) (i : Id)
    (hobj : (World.obj? ⟨cache, idIdx, ⟨0, rows, seq, [], tr⟩⟩ ck) = some o)
    (hstat : o.m_loading_status ≠ .loading) :
    (o.m_id = none →
      remove env eng ck ⟨cache, idIdx, ⟨0, rows, seq, [], tr⟩⟩ =
        (⟨cache, idIdx, ⟨0, rows, seq, [], tr⟩⟩, none))
    ∧ (o.m_id = some i → env.doRemoveFails = false →
        eng .begin_ = false → eng .commit_ = false →
        ∃ w',
          remove env eng ck ⟨cache, idIdx, ⟨0, rows, seq, [], tr⟩⟩ =
            (w', none)
          ∧ w'.obj? ck = some { o with m_id := none }
          ∧ w'.idIndex? i = none
          ∧ w'.conn.rows = rows.filter (· ≠ i)
          ∧ w'.conn.m_transaction_nesting_level = 0
          ∧ PObj.idValue { o with m_id := none } =
              .error .UninitializedOptionalException
          ∧ getter env eng ck w' = ((w', none), some o.data))
    ∧ (o.m_id = some i → env.doRemoveFails = true →
        eng .begin_ = false → eng .rollback = false →
        ∃ w',
          remove env eng ck ⟨cache, idIdx, ⟨0, rows, seq, [], tr⟩⟩ =
            (w', some .SQLiteError)
          ∧ w'.obj? ck = some { o with m_loading_status := .ghost }
          ∧ w'.idIndex = idIdx
          ∧ w'.conn.rows = rows
          ∧ w'.conn.m_transaction_nesting_level = 0)
    ∧ (o.m_id = some i → env.doRemoveFails = false →
        eng .begin_ = false → eng .commit_ = true → eng .rollback = false →
        ∃ w',
          remove env eng ck ⟨cache, idIdx, ⟨0, rows, seq, [], tr⟩⟩ =
            (w', some .UnresolvedTransactionException)
          ∧ w'.obj? ck = some { o with m_loading_status := .ghost }
          ∧ w'.idIndex = idIdx
          ∧ w'.conn.rows = rows
          ∧ w'.conn.m_transaction_nesting_level = 0) := by
  have hobj' : (cache.find? (fun p => p.1 = ck)).map (·.2) = some o := by
    simpa [World.obj?] using hobj
  refine ⟨?_, ?_, ?_, ?_⟩
  · intro hid
    simp [remove, World.obj?, hobj', hid]
  · intro hid henv hb hc
    refine ⟨⟨cache.map
        (fun p => if p.1 = ck then (ck, { o with m_id := none }) else p),
        idIdx.filter (fun p => p.1 ≠ i),
        ⟨0, rows.filter (· ≠ i), seq, [],
          tr ++ [TxCommand.begin_] ++ [TxCommand.commit_]⟩⟩,
      ?_, ?_, ?_, ?_, ?_, ?_, ?_⟩
    · simp [remove, World.obj?, hobj', hid, DatabaseTransaction.make,
        begin_transaction, execTxCommand, applyTxCommand, hb, do_remove,
        henv, DatabaseTransaction.commit, end_transaction, hc,
        partially_uncache_object, World.setObj]
    · exact World.obj?_setObj_self
        ⟨cache, idIdx.filter (fun p => p.1 ≠ i),
          ⟨0, rows.filter (· ≠ i), seq, [],
            tr ++ [TxCommand.begin_] ++ [TxCommand.commit_]⟩⟩
        ck o _ (by simpa [World.obj?] using hobj)
    · exact World.idIndex?_erase_self idIdx _ _ i
    · rfl
    · rfl
    · simp [PObj.idValue]
    · have hset := World.obj?_setObj_self
        (⟨cache, idIdx.filter (fun p => p.1 ≠ i),
          ⟨0, rows.filter (· ≠ i), seq, [],
            tr ++ [TxCommand.begin_] ++ [TxCommand.commit_]⟩⟩ : World)
        ck o { o with m_id := none } (by simpa [World.obj?] using hobj)
      simp only [World.setObj] at hset
      simp only [getter, load, hset]
      simp [hstat, hset]
      exact ⟨{ o with m_id := none }, by simpa using hset, rfl⟩
  · intro hid henv hb hr
    refine ⟨⟨cache.map
        (fun p => if p.1 = ck then
          (ck, { o with m_loading_status := LoadingStatus.ghost }) else p),
        idIdx,
        ⟨0, rows, seq, [],
          tr ++ [TxCommand.begin_] ++ [TxCommand.rollback]⟩⟩,
      ?_, ?_, ?_, ?_, ?_⟩
    · simp [remove, World.obj?, hobj', hid, DatabaseTransaction.make,
        begin_transaction, execTxCommand, applyTxCommand, hb, do_remove,
        henv, ghostify, DatabaseTransaction.cancel, cancel_transaction,
        hr, World.setObj]
    · exact World.obj?_setObj_self
        ⟨cache, idIdx,
          ⟨0, rows, seq, [], tr ++ [TxCommand.begin_] ++ [TxCommand.rollback]⟩⟩
        ck o _ (by simpa [World.obj?] using hobj)
    · rfl
    · rfl
    · rfl
  · intro hid henv hb hc hr
    refine ⟨⟨cache.map
        (fun p => if p.1 = ck then
          (ck, { o with m_loading_status := LoadingStatus.ghost }) else p),
        idIdx,
        ⟨0, rows, seq, [],
          tr ++ [TxCommand.begin_] ++ [TxCommand.commit_] ++
            [TxCommand.rollback]⟩⟩,
      ?_, ?_, ?_, ?_, ?_⟩
    · simp [remove, World.obj?, hobj', hid, DatabaseTransaction.make,
        begin_transaction, execTxCommand, applyTxCommand, hb, do_remove,
        henv, ghostify, DatabaseTransaction.commit, end_transaction, hc,
        DatabaseTransaction.cancel, cancel_transaction, hr, World.setObj]
    · exact World.obj?_setObj_self
        ⟨cache, idIdx,
          ⟨0, rows, seq, [],
            tr ++ [TxCommand.begin_] ++ [TxCommand.commit_] ++
              [TxCommand.rollback]⟩⟩
        ck o _ (by simpa [World.obj?] using hobj)
    · rfl
    · rfl
    · rfl

/-- Witness for the C6 theorem: removing a saved object (id 3, cache
key 1) with the all-success environment. -/
theorem remove_spec_witness :
    ∃ w',
      remove Env.ok Engine.ok 1
          ⟨[(1, ⟨some 3, some 1, .loaded, 42⟩)], [(3, 1)], ⟨0, [3], 3, [], []⟩⟩ =
        (w', none)
      ∧ w'.obj? 1 = some { (⟨some 3, some 1, .loaded, 42⟩ : PObj) with
          m_id := none }
      ∧ w'.idIndex? 3 = none
      ∧ w'.conn.rows = [3].filter (· ≠ 3)
      ∧ w'.conn.m_transaction_nesting_level = 0
      ∧ PObj.idValue { (⟨some 3, some 1, .loaded, 42⟩ : PObj) with
          m_id := none } = .error .UninitializedOptionalException
      ∧ getter Env.ok Engine.ok 1 w' =
          ((w', none), some (⟨some 3, some 1, .loaded, 42⟩ : PObj).data) :=
  (remove_spec Env.ok Engine.ok 1 [(1, ⟨some 3, some 1, .loaded, 42⟩)]
    [(3, 1)] [3] 3 [] ⟨some 3, some 1, .loaded, 42⟩ 3
    (by decide) (by decide)).2.1 rfl rfl rfl rfl

/-- Helper: successful `save()` of an object without an id, when the
allocated id is not already in `by_id`: the row is inserted, the id
registered and recorded on the object, and the object marked loaded. -/
theorem save_new_ok (env : Env) (eng : Engine) (ck : Id)
    (cache : List (Id × PObj)) (idIdx : List (Id × Id)) (rows : List Id)
    (seq : Int) (tr : List TxCommand) (o : PObj)
    (hobj : (World.obj? ⟨cache, idIdx, ⟨0, rows, seq, [], tr⟩⟩ ck) = some o)
    (hid : o.m_id = none)
    (hseq : seq ≠ idMax)
    (hcoll : (World.idIndex? ⟨cache, idIdx, ⟨0, rows, seq, [], tr⟩⟩
      (seq + 1)) = none)
    (hsn : env.doSaveNewFails = false) (hra : env.registerAllocFails = false)
    (hb : eng .begin_ = false) (hc : eng .commit_ = false) :
    save env eng ck ⟨cache, idIdx, ⟨0, rows, seq, [], tr⟩⟩ =
      (⟨cache.map (fun p => if p.1 = ck then (ck, savedObj o (seq + 1)) else p),
        idIdx ++ [(seq + 1, ck)],
        ⟨0, rows ++ [seq + 1], seq + 1, [],
          tr ++ [TxCommand.begin_] ++ [TxCommand.commit_]⟩⟩, none)
    ∧ (World.obj? ⟨cache.map
          (fun p => if p.1 = ck then (ck, savedObj o (seq + 1)) else p),
        idIdx ++ [(seq + 1, ck)],
        ⟨0, rows ++ [seq + 1], seq + 1, [],
          tr ++ [TxCommand.begin_] ++ [TxCommand.commit_]⟩⟩ ck) =
      some (savedObj o (seq + 1))
    ∧ (World.idIndex? ⟨cache.map
          (fun p => if p.1 = ck then (ck, savedObj o (seq + 1)) else p),
        idIdx ++ [(seq + 1, ck)],
        ⟨0, rows ++ [seq + 1], seq + 1, [],
          tr ++ [TxCommand.begin_] ++ [TxCommand.commit_]⟩⟩ (seq + 1)) =
      some ck := by
  have hobj' : (cache.find? (fun p => p.1 = ck)).map (·.2) = some o := by
    simpa [World.obj?] using hobj
  have hcoll' : (idIdx.find? (fun p => p.1 = seq + 1)) = none := by
    simp only [World.idIndex?, Option.map_eq_none'] at hcoll
    exact hcoll
  refine ⟨?_, ?_, ?_⟩
  · simp [save, World.obj?, hobj', hid, prospective_key, next_auto_key,
      hseq, DatabaseTransaction.make, begin_transaction, execTxCommand,
      applyTxCommand, hb, do_save_new, hsn, register_id, World.idIndex?,
      hcoll', hra, DatabaseTransaction.commit, end_transaction, hc,
      World.setObj, savedObj]
  · exact World.obj?_setObj_self
      ⟨cache, idIdx ++ [(seq + 1, ck)],
        ⟨0, rows ++ [seq + 1], seq + 1, [],
          tr ++ [TxCommand.begin_] ++ [TxCommand.commit_]⟩⟩
      ck o _ (by simpa [World.obj?] using hobj)
  · simpa [World.idIndex?] using
      find?_append_self idIdx (seq + 1) ck hcoll'

/-- Claim C3: in `save()` on an object without an id, if registering the
allocated id throws or the commit throws, the allocated id ends up
absent from `by_id`, the in-memory id is cleared, the transaction scope
is cancelled and the exception is rethrown (a commit failure surfacing
as the scope's `UnresolvedTransactionException`), and the row is absent
from the database; if `do_save_new()` itself throws, the id is merely
cleared and the scope cancelled, with `by_id` untouched. -/
theorem save_new_failure_spec (env : Env) (eng : Engine) (ck : Id)
    (cache : List (Id × PObj)) (idIdx : List (Id × Id)) (rows : List Id)
    (seq : Int) (tr : List TxCommand) (o : PObj)
    (hobj : (World.obj? ⟨cache, idIdx, ⟨0, rows, seq, [], tr⟩⟩ ck) = some o)
    (hid : o.m_id = none)
    (hseq : seq ≠ idMax)
    (hrow : (seq + 1) ∉ rows)
    (hcoll : ∀ oldCk,
      (World.idIndex? ⟨cache, idIdx, ⟨0, rows, seq, [], tr⟩⟩ (seq + 1)) =
        some oldCk →
      ∃ oldObj,
        (World.obj? ⟨cache, idIdx, ⟨0, rows, seq, [], tr⟩⟩ oldCk) =
          some oldObj
        ∧ oldObj.m_id = some (seq + 1))
    (hb : eng .begin_ = false) (hr : eng .rollback = false) :
    (env.doSaveNewFails = true →
      (save env eng ck ⟨cache, idIdx, ⟨0, rows, seq, [], tr⟩⟩).2 =
        some .DerivedException
      ∧ (save env eng ck
          ⟨cache, idIdx, ⟨0, rows, seq, [], tr⟩⟩).1.idIndex = idIdx
      ∧ (save env eng ck
          ⟨cache, idIdx, ⟨0, rows, seq, [], tr⟩⟩).1.obj? ck = some o
      ∧ (save env eng ck
          ⟨cache, idIdx, ⟨0, rows, seq, [], tr⟩⟩).1.conn.rows = rows
      ∧ (save env eng ck
          ⟨cache, idIdx, ⟨0, rows, seq, [], tr⟩⟩).1.conn.m_transaction_nesting_level = 0)
    ∧ (env.doSaveNewFails = false → env.registerAllocFails = true →
      (save env eng ck ⟨cache, idIdx, ⟨0, rows, seq, [], tr⟩⟩).2 =
        some .BadAlloc
      ∧ (save env eng ck
          ⟨cache, idIdx, ⟨0, rows, seq, [], tr⟩⟩).1.idIndex? (seq + 1) = none
      ∧ (save env eng ck
          ⟨cache, idIdx, ⟨0, rows, seq, [], tr⟩⟩).1.obj? ck = some o
      ∧ (save env eng ck
          ⟨cache, idIdx, ⟨0, rows, seq, [], tr⟩⟩).1.conn.rows = rows
      ∧ (save env eng ck
          ⟨cache, idIdx, ⟨0, rows, seq, [], tr⟩⟩).1.conn.m_transaction_nesting_level = 0)
    ∧ (env.doSaveNewFails = false → env.registerAllocFails = false →
        eng .commit_ = true →
      (save env eng ck ⟨cache, idIdx, ⟨0, rows, seq, [], tr⟩⟩).2 =
        some .UnresolvedTransactionException
      ∧ (save env eng ck
          ⟨cache, idIdx, ⟨0, rows, seq, [], tr⟩⟩).1.idIndex? (seq + 1) = none
      ∧ (save env eng ck
          ⟨cache, idIdx, ⟨0, rows, seq, [], tr⟩⟩).1.obj? ck = some o
      ∧ (save env eng ck
          ⟨cache, idIdx, ⟨0, rows, seq, [], tr⟩⟩).1.conn.rows = rows
      ∧ (save env eng ck
          ⟨cache, idIdx, ⟨0, rows, seq, [], tr⟩⟩).1.conn.m_transaction_nesting_level = 0
      ∧ (seq + 1) ∉
          (save env eng ck
            ⟨cache, idIdx, ⟨0, rows, seq, [], tr⟩⟩).1.conn.rows) := by
  have hobj' : (cache.find? (fun p => p.1 = ck)).map (·.2) = some o := by
    simpa [World.obj?] using hobj
  have hfind : cache.find? (fun p => p.1 = ck) = some (ck, o) :=
    find?_eq_entry cache ck o hobj'
  have hoid : ({ o with m_id := none } : PObj) = o := by
    cases o
    simp_all
  refine ⟨?_, ?_, ?_⟩
  · intro hsn
    simp [save, World.obj?, hfind, hid, prospective_key, next_auto_key,
      hseq, DatabaseTransaction.make, begin_transaction, execTxCommand,
      applyTxCommand, hb, do_save_new, hsn, DatabaseTransaction.cancel,
      cancel_transaction, hr, World.setObj, comp_update_pred, hoid]
  · intro hsn hra
    rcases hcase : (World.idIndex? ⟨cache, idIdx, ⟨0, rows, seq, [], tr⟩⟩
        (seq + 1)) with _ | oldCk
    · have hcase' : (idIdx.find? (fun p => p.1 = seq + 1)) = none := by
        simpa [World.idIndex?, Option.map_eq_none'] using hcase
      simp [save, World.obj?, hfind, hid, prospective_key, next_auto_key,
        hseq, DatabaseTransaction.make, begin_transaction, execTxCommand,
        applyTxCommand, hb, do_save_new, hsn, register_id, World.idIndex?,
        hcase', hra, DatabaseTransaction.cancel, cancel_transaction, hr,
        World.setObj, comp_update_pred, hoid]
    · obtain ⟨oldObj, holdobj, holdid⟩ := hcoll oldCk hcase
      have holdobj' : (cache.find? (fun p => p.1 = oldCk)).map (·.2) =
          some oldObj := by
        simpa [World.obj?] using holdobj
      have hfold : cache.find? (fun p => p.1 = oldCk) =
          some (oldCk, oldObj) :=
        find?_eq_entry cache oldCk oldObj holdobj'
      have hne : ck ≠ oldCk := by
        intro h
        rw [h, holdobj'] at hobj'
        rw [← Option.some_inj.mp hobj'] at hid
        rw [holdid] at hid
        simp at hid
      have hfidx : idIdx.find? (fun p => p.1 = seq + 1) =
          some (seq + 1, oldCk) :=
        find?_eq_entry idIdx (seq + 1) oldCk
          (by simpa [World.idIndex?] using hcase)
      simp [save, World.obj?, hfind, hfold, hid, prospective_key,
        next_auto_key, hseq, DatabaseTransaction.make, begin_transaction,
        execTxCommand, applyTxCommand, hb, do_save_new, hsn, register_id,
        World.idIndex?, hfidx, holdid, partially_uncache_object, hra,
        DatabaseTransaction.cancel, cancel_transaction, hr, World.setObj,
        comp_update_pred, hoid, hne, find?_filter_self_none_bang,
        ← Function.comp_assoc]
  · intro hsn hra hcfail
    rcases hcase : (World.idIndex? ⟨cache, idIdx, ⟨0, rows, seq, [], tr⟩⟩
        (seq + 1)) with _ | oldCk
    · have hcase' : (idIdx.find? (fun p => p.1 = seq + 1)) = none := by
        simpa [World.idIndex?, Option.map_eq_none'] using hcase
      simp [save, World.obj?, hfind, hid, prospective_key, next_auto_key,
        hseq, DatabaseTransaction.make, begin_transaction, execTxCommand,
        applyTxCommand, hb, do_save_new, hsn, register_id, World.idIndex?,
        hcase', hra, DatabaseTransaction.commit, end_transaction, hcfail,
        deregister_id, DatabaseTransaction.cancel, cancel_transaction, hr,
        World.setObj, comp_update_pred, hoid, find?_filter_self_none_bang,
        hrow]
    · obtain ⟨oldObj, holdobj, holdid⟩ := hcoll oldCk hcase
      have holdobj' : (cache.find? (fun p => p.1 = oldCk)).map (·.2) =
          some oldObj := by
        simpa [World.obj?] using holdobj
      have hfold : cache.find? (fun p => p.1 = oldCk) =
          some (oldCk, oldObj) :=
        find?_eq_entry cache oldCk oldObj holdobj'
      have hne : ck ≠ oldCk := by
        intro h
        rw [h, holdobj'] at hobj'
        rw [← Option.some_inj.mp hobj'] at hid
        rw [holdid] at hid
        simp at hid
      have hfidx : idIdx.find? (fun p => p.1 = seq + 1) =
          some (seq + 1, oldCk) :=
        find?_eq_entry idIdx (seq + 1) oldCk
          (by simpa [World.idIndex?] using hcase)
      simp [save, World.obj?, hfind, hfold, hid, prospective_key,
        next_auto_key, hseq, DatabaseTransaction.make, begin_transaction,
        execTxCommand, applyTxCommand, hb, do_save_new, hsn, register_id,
        World.idIndex?, hfidx, holdid, partially_uncache_object, hra,
        DatabaseTransaction.commit, end_transaction, hcfail,
        deregister_id, DatabaseTransaction.cancel, cancel_transaction, hr,
        World.setObj, comp_update_pred, hoid, hne,
        find?_filter_self_none_bang, hrow, ← Function.comp_assoc]

/-- Witness for the C3 theorem: registration failure while saving a
fresh object leaves `by_id` without the allocated id 1, the object
id-less, the transaction cancelled and the row absent. -/
theorem save_new_failure_spec_witness :
    (save ⟨false, false, false, false, true⟩ Engine.ok 1
        ⟨[(1, ⟨none, some 1, .ghost, 7⟩)], [], ⟨0, [], 0, [], []⟩⟩).2 =
      some .BadAlloc
    ∧ (save ⟨false, false, false, false, true⟩ Engine.ok 1
        ⟨[(1, ⟨none, some 1, .ghost, 7⟩)], [], ⟨0, [], 0, [], []⟩⟩).1.idIndex?
        (0 + 1) = none
    ∧ (save ⟨false, false, false, false, true⟩ Engine.ok 1
        ⟨[(1, ⟨none, some 1, .ghost, 7⟩)], [], ⟨0, [], 0, [], []⟩⟩).1.obj? 1 =
      some ⟨none, some 1, .ghost, 7⟩
    ∧ (save ⟨false, false, false, false, true⟩ Engine.ok 1
        ⟨[(1, ⟨none, some 1, .ghost, 7⟩)], [], ⟨0, [], 0, [], []⟩⟩).1.conn.rows
        = []
    ∧ (save ⟨false, false, false, false, true⟩ Engine.ok 1
        ⟨[(1, ⟨none, some 1, .ghost, 7⟩)], [],
          ⟨0, [], 0, [], []⟩⟩).1.conn.m_transaction_nesting_level = 0 :=
  (save_new_failure_spec ⟨false, false, false, false, true⟩ Engine.ok 1
    [(1, ⟨none, some 1, .ghost, 7⟩)] [] [] 0 [] ⟨none, some 1, .ghost, 7⟩
    (by decide) rfl (by decide) (by decide)
    (fun oldCk h => by simp [World.idIndex?] at h) rfl rfl).2.1 rfl rfl

/-- Claim C2 as stated is false on the code: the no-id branch of
`save()` never ghostifies. Concretely, save a fresh object (it becomes
loaded with id 1), `remove()` it (id cleared, status still loaded), then
save again with `do_save_new` failing: the rolled-back object is left
id-less but in the `loaded` state, not the `Ghost` state the claim
asserts. -/
theorem save_rollback_not_ghost_counterexample :
    (save ⟨false, false, true, false, false⟩ Engine.ok 1
      (remove Env.ok Engine.ok 1
        (save Env.ok Engine.ok 1
          ⟨[(1, ⟨none, some 1, .ghost, 7⟩)], [],
            ⟨0, [], 0, [], []⟩⟩).1).1).2 = some .DerivedException
    ∧ ((save ⟨false, false, true, false, false⟩ Engine.ok 1
        (remove Env.ok Engine.ok 1
          (save Env.ok Engine.ok 1
            ⟨[(1, ⟨none, some 1, .ghost, 7⟩)], [],
              ⟨0, [], 0, [], []⟩⟩).1).1).1.obj? 1).map (·.m_id) = some none
    ∧ ((save ⟨false, false, true, false, false⟩ Engine.ok 1
        (remove Env.ok Engine.ok 1
          (save Env.ok Engine.ok 1
            ⟨[(1, ⟨none, some 1, .ghost, 7⟩)], [],
              ⟨0, [], 0, [], []⟩⟩).1).1).1.obj? 1).map
        (·.m_loading_status) = some .loaded
    ∧ LoadingStatus.loaded ≠ LoadingStatus.ghost := by
  decide

/-- Claim C2, amended: when `save()` throws (other than
`UnresolvedTransaction`) and the transaction is rolled back, an object
that had an id is left in the Ghost state with its id intact; an object
with no id is left with no id and its loading status *unchanged* (hence
Ghost exactly when it entered as a ghost, as a never-saved object does);
the identity-map indexes are consistent with that outcome, and the
object's cache key remains valid, so a subsequent save() can succeed. -/
theorem save_rollback_amended_spec (env : Env) (eng : Engine) (ck : Id)
    (cache : List (Id × PObj)) (idIdx : List (Id × Id)) (rows : List Id)
    (seq : Int) (tr : List TxCommand) (o : PObj) (i : Id)
    (hobj : (World.obj? ⟨cache, idIdx, ⟨0, rows, seq, [], tr⟩⟩ ck) = some o)
    (hb : eng .begin_ = false) (hr : eng .rollback = false) :
    (o.m_id = some i → o.m_loading_status = .loaded →
      env.doSaveExistingFails = true →
      (save env eng ck ⟨cache, idIdx, ⟨0, rows, seq, [], tr⟩⟩).2 =
        some .DerivedException
      ∧ (save env eng ck
          ⟨cache, idIdx, ⟨0, rows, seq, [], tr⟩⟩).1.obj? ck =
        some { o with m_loading_status := .ghost }
      ∧ (save env eng ck
          ⟨cache, idIdx, ⟨0, rows, seq, [], tr⟩⟩).1.idIndex = idIdx
      ∧ (save env eng ck
          ⟨cache, idIdx, ⟨0, rows, seq, [], tr⟩⟩).1.conn.rows = rows)
    ∧ (o.m_id = some i → o.m_loading_status = .ghost →
      env.doLoadFails = true →
      (save env eng ck ⟨cache, idIdx, ⟨0, rows, seq, [], tr⟩⟩).2 =
        some .DerivedException
      ∧ (save env eng ck
          ⟨cache, idIdx, ⟨0, rows, seq, [], tr⟩⟩).1.obj? ck =
        some { o with m_loading_status := .ghost }
      ∧ (save env eng ck
          ⟨cache, idIdx, ⟨0, rows, seq, [], tr⟩⟩).1.idIndex = idIdx
      ∧ (save env eng ck
          ⟨cache, idIdx, ⟨0, rows, seq, [], tr⟩⟩).1.conn.rows = rows)
    ∧ (o.m_id = none → env.doSaveNewFails = true → seq ≠ idMax →
      (World.idIndex? ⟨cache, idIdx, ⟨0, rows, seq, [], tr⟩⟩ (seq + 1)) =
        none →
      (save env eng ck ⟨cache, idIdx, ⟨0, rows, seq, [], tr⟩⟩).2 =
        some .DerivedException
      ∧ (save env eng ck
          ⟨cache, idIdx, ⟨0, rows, seq, [], tr⟩⟩).1.obj? ck = some o
      ∧ (save env eng ck
          ⟨cache, idIdx, ⟨0, rows, seq, [], tr⟩⟩).1.idIndex = idIdx
      ∧ (save Env.ok Engine.ok ck
          (save env eng ck ⟨cache, idIdx, ⟨0, rows, seq, [], tr⟩⟩).1).2 =
        none
      ∧ ((save Env.ok Engine.ok ck
          (save env eng ck
            ⟨cache, idIdx, ⟨0, rows, seq, [], tr⟩⟩).1).1.obj? ck) =
        some (savedObj o (seq + 1))) := by
  have hobj' : (cache.find? (fun p => p.1 = ck)).map (·.2) = some o := by
    simpa [World.obj?] using hobj
  have hfind : cache.find? (fun p => p.1 = ck) = some (ck, o) :=
    find?_eq_entry cache ck o hobj'
  refine ⟨?_, ?_, ?_⟩
  · intro hid hstat henv
    simp [save, load, World.obj?, hfind, hid, hstat,
      DatabaseTransaction.make, begin_transaction, execTxCommand,
      applyTxCommand, hb, do_save_existing, henv, ghostify,
      DatabaseTransaction.cancel, cancel_transaction, hr, World.setObj,
      comp_update_pred, ← Function.comp_assoc]
  · intro hid hstat henv
    simp [save, load, World.obj?, hfind, hid, hstat,
      DatabaseTransaction.make, begin_transaction, execTxCommand,
      applyTxCommand, hb, do_load, henv, ghostify,
      DatabaseTransaction.cancel, cancel_transaction, hr, World.setObj,
      comp_update_pred, ← Function.comp_assoc]
  · intro hid hsn hseq hcoll2
    have hoid : ({ o with m_id := none } : PObj) = o := by
      cases o
      simp_all
    have hcoll2' : (idIdx.find? (fun p => p.1 = seq + 1)) = none := by
      simpa [World.idIndex?, Option.map_eq_none'] using hcoll2
    have hw' : (save env eng ck
        ⟨cache, idIdx, ⟨0, rows, seq, [], tr⟩⟩).1 =
        ⟨cache.map (fun p => if p.1 = ck then (ck, o) else p), idIdx,
          ⟨0, rows, seq, [],
            tr ++ [TxCommand.begin_, TxCommand.rollback]⟩⟩ := by
      simp [save, World.obj?, hfind, hid, prospective_key, next_auto_key,
        hseq, DatabaseTransaction.make, begin_transaction, execTxCommand,
        applyTxCommand, hb, do_save_new, hsn, DatabaseTransaction.cancel,
        cancel_transaction, hr, World.setObj, comp_update_pred, hoid,
        ← Function.comp_assoc]
    have hupd : ((cache.map (fun p => if p.1 = ck then (ck, o) else p)).find?
        (fun p => p.1 = ck)).map (·.2) = some o :=
      find?_update_self cache ck o (by simp [hobj'])
    have hobj2 : (World.obj?
        ⟨cache.map (fun p => if p.1 = ck then (ck, o) else p), idIdx,
          ⟨0, rows, seq, [],
            tr ++ [TxCommand.begin_, TxCommand.rollback]⟩⟩ ck) = some o := by
      simpa [World.obj?] using hupd
    have hresave := save_new_ok Env.ok Engine.ok ck
      (cache.map (fun p => if p.1 = ck then (ck, o) else p)) idIdx rows seq
      (tr ++ [TxCommand.begin_, TxCommand.rollback]) o hobj2 hid hseq
      (by simpa [World.idIndex?] using hcoll2') rfl rfl rfl rfl
    refine ⟨?_, ?_, ?_, ?_, ?_⟩
    · simp [save, World.obj?, hfind, hid, prospective_key, next_auto_key,
        hseq, DatabaseTransaction.make, begin_transaction, execTxCommand,
        applyTxCommand, hb, do_save_new, hsn, DatabaseTransaction.cancel,
        cancel_transaction, hr, World.setObj, comp_update_pred, hoid,
        ← Function.comp_assoc]
    · rw [hw']
      exact hobj2
    · rw [hw']
    · rw [hw', hresave.1]
    · rw [hw', hresave.1]
      exact hresave.2.1

/-- Witness for the amended C2 theorem: a fresh ghost whose first save
fails in `do_save_new` stays an id-less ghost, and saving it again
succeeds. -/
theorem save_rollback_amended_spec_witness :
    (save ⟨false, false, true, false, false⟩ Engine.ok 1
        ⟨[(1, ⟨none, some 1, .ghost, 7⟩)], [], ⟨0, [], 0, [], []⟩⟩).2 =
      some .DerivedException
    ∧ (save ⟨false, false, true, false, false⟩ Engine.ok 1
        ⟨[(1, ⟨none, some 1, .ghost, 7⟩)], [], ⟨0, [], 0, [], []⟩⟩).1.obj? 1
      = some ⟨none, some 1, .ghost, 7⟩
    ∧ (save ⟨false, false, true, false, false⟩ Engine.ok 1
        ⟨[(1, ⟨none, some 1, .ghost, 7⟩)], [],
          ⟨0, [], 0, [], []⟩⟩).1.idIndex = []
    ∧ (save Env.ok Engine.ok 1
        (save ⟨false, false, true, false, false⟩ Engine.ok 1
          ⟨[(1, ⟨none, some 1, .ghost, 7⟩)], [],
            ⟨0, [], 0, [], []⟩⟩).1).2 = none
    ∧ ((save Env.ok Engine.ok 1
        (save ⟨false, false, true, false, false⟩ Engine.ok 1
          ⟨[(1, ⟨none, some 1, .ghost, 7⟩)], [],
            ⟨0, [], 0, [], []⟩⟩).1).1.obj? 1) =
      some (savedObj ⟨none, some 1, .ghost, 7⟩ (0 + 1)) :=
  (save_rollback_amended_spec ⟨false, false, true, false, false⟩ Engine.ok 1
    [(1, ⟨none, some 1, .ghost, 7⟩)] [] [] 0 [] ⟨none, some 1, .ghost, 7⟩ 1
    (by decide) rfl rfl).2.2 rfl rfl (by decide) (by decide)

/-! ### Cache-key allocation: supporting lemmas -/

/-- `wrapSucc` stays in the cyclic range `[1, ckMax]`. -/
theorem wrapSucc_bounds (r : Int) (h1 : 1 ≤ r) (h2 : r ≤ ckMax) :
    1 ≤ wrapSucc r ∧ wrapSucc r ≤ ckMax := by
  simp only [wrapSucc, ckMax] at *
  split <;> omega

/-- All scan candidates stay in the cyclic range. -/
theorem scanCand_bounds (j : Nat) : ∀ r, 1 ≤ r → r ≤ ckMax →
    1 ≤ scanCand j r ∧ scanCand j r ≤ ckMax := by
  induction j with
  | zero => exact fun r h1 h2 => ⟨h1, h2⟩
  | succ j ih =>
    intro r h1 h2
    have hb := wrapSucc_bounds r h1 h2
    exact ih _ hb.1 hb.2

/-- Closed form of the scan candidates as cyclic addition, valid before
a full wrap-around. -/
theorem scanCand_eq_wadd (j : Nat) : ∀ r, 1 ≤ r → r ≤ ckMax →
    (j : Int) ≤ ckMax - 1 → scanCand j r = wadd r j := by
  induction j with
  | zero =>
    intro r h1 h2 _
    simp [scanCand, wadd, h2]
  | succ j ih =>
    intro r h1 h2 hj
    have hb := wrapSucc_bounds r h1 h2
    have hstep : scanCand (j + 1) r = scanCand j (wrapSucc r) := rfl
    rw [hstep, ih (wrapSucc r) hb.1 hb.2 (by push_cast at hj ⊢; omega)]
    simp only [wrapSucc, wadd, ckMax] at hj ⊢
    push_cast at hj ⊢
    split_ifs <;> omega

/-- Distinct scan positions before a full wrap-around yield distinct
candidates. -/
theorem scanCand_injOn (r : Int) (h1 : 1 ≤ r) (h2 : r ≤ ckMax)
    (j1 j2 : Nat) (hj1 : (j1 : Int) ≤ ckMax - 1)
    (hj2 : (j2 : Int) ≤ ckMax - 1)
    (heq : scanCand j1 r = scanCand j2 r) : j1 = j2 := by
  rw [scanCand_eq_wadd j1 r h1 h2 hj1, scanCand_eq_wadd j2 r h1 h2 hj2]
    at heq
  simp only [wadd, ckMax] at heq
  simp only [ckMax] at hj1 hj2
  split_ifs at heq <;> omega

/-- If the fueled scan fails, every candidate it visited is a key in
use. -/
theorem scan_none_mem (keys : List Int) : ∀ fuel ret,
    firstFreeKeyScan keys fuel ret = none →
    ∀ j, j < fuel → scanCand j ret ∈ keys := by
  intro fuel
  induction fuel with
  | zero =>
    intro ret _ j hj
    omega
  | succ fuel ih =>
    intro ret h j hj
    unfold firstFreeKeyScan at h
    by_cases hm : ret ∈ keys
    · rw [if_pos hm] at h
      cases j with
      | zero => exact hm
      | succ j => exact ih (wrapSucc ret) h j (by omega)
    · rw [if_neg hm] at h
      exact absurd h (by simp)

/-- A successful scan returns a free key inside the cyclic range. -/
theorem scan_some_props (keys : List Int) : ∀ fuel ret r,
    firstFreeKeyScan keys fuel ret = some r →
    r ∉ keys ∧ (1 ≤ ret → ret ≤ ckMax → 1 ≤ r ∧ r ≤ ckMax) := by
  intro fuel
  induction fuel with
  | zero =>
    intro ret r h
    simp [firstFreeKeyScan] at h
  | succ fuel ih =>
    intro ret r h
    unfold firstFreeKeyScan at h
    by_cases hm : ret ∈ keys
    · rw [if_pos hm] at h
      obtain ⟨ha, hb⟩ := ih (wrapSucc ret) r h
      exact ⟨ha, fun a b =>
        hb (wrapSucc_bounds ret a b).1 (wrapSucc_bounds ret a b).2⟩
    · rw [if_neg hm] at h
      obtain rfl : ret = r := by simpa using h
      exact ⟨hm, fun a b => ⟨a, b⟩⟩

/-- With one unit of fuel per key plus one, the scan always finds a free
key when fewer than `ckMax` keys are in use (pigeonhole over the
distinct candidates). -/
theorem scan_succeeds (keys : List Int) (hnd : keys.Nodup)
    (hsz : (keys.length : Int) < ckMax) (ret : Int)
    (h1 : 1 ≤ ret) (h2 : ret ≤ ckMax) :
    ∃ r, firstFreeKeyScan keys (keys.length + 1) ret = some r := by
  rcases hscan : firstFreeKeyScan keys (keys.length + 1) ret with _ | r
  · exfalso
    have hmem := scan_none_mem keys _ ret hscan
    have hinj : Set.InjOn (fun j => scanCand j ret)
        ↑(Finset.range (keys.length + 1)) := by
      intro a ha b hb heq
      simp only [Finset.coe_range, Set.mem_Iio] at ha hb
      exact scanCand_injOn ret h1 h2 a b (by omega) (by omega) heq
    have hcard : ((Finset.range (keys.length + 1)).image
        (fun j => scanCand j ret)).card = keys.length + 1 := by
      rw [Finset.card_image_of_injOn hinj, Finset.card_range]
    have hsub : (Finset.range (keys.length + 1)).image
        (fun j => scanCand j ret) ⊆ keys.toFinset := by
      intro x hx
      obtain ⟨j, hj, rfl⟩ := Finset.mem_image.mp hx
      rw [List.mem_toFinset]
      exact hmem j (Finset.mem_range.mp hj)
    have := Finset.card_le_card hsub
    rw [hcard, List.toFinset_card_of_nodup hnd] at this
    omega
  · exact ⟨r, rfl⟩

/-- Lockstep simulation: from a state satisfying the loop invariant
(every key strictly before the iterator is below the candidate, and the
candidate is at most the iterator's key unless it has passed every key),
the iterator loop of `provide_cache_key` computes exactly the
generate-and-test scan of the specification. -/
theorem loop_eq_scan (keys : List Int)
    (hsort : List.Pairwise (· < ·) keys)
    (hbound : ∀ k ∈ keys, 1 ≤ k ∧ k ≤ ckMax) :
    ∀ fuel ret i (hi : i < keys.length),
      (∀ j (hj : j < keys.length), j < i → keys.get ⟨j, hj⟩ < ret) →
      (ret ≤ keys.get ⟨i, hi⟩ ∨ ∀ k ∈ keys, k < ret) →
      1 ≤ ret → ret ≤ ckMax →
      provideCacheKeyLoop keys fuel ret i = firstFreeKeyScan keys fuel ret := by
  have hpair := List.pairwise_iff_get.mp hsort
  intro fuel
  induction fuel with
  | zero =>
    intro ret i hi _ _ _ _
    rfl
  | succ fuel ih =>
    intro ret i hi hJ1 hJ2 hr1 hr2
    have hget : keys.get? i = some (keys.get ⟨i, hi⟩) := List.get?_eq_get hi
    by_cases hrk : ret = keys.get ⟨i, hi⟩
    · -- candidate matches the key at the iterator: both sides advance
      have hmem : ret ∈ keys := hrk ▸ keys.get_mem i hi
      rw [show provideCacheKeyLoop keys (fuel + 1) ret i =
          provideCacheKeyLoop keys fuel (wrapSucc ret)
            (if i + 1 = keys.length then 0 else i + 1) from by
        simp only [provideCacheKeyLoop, hget]
        rw [if_pos hrk]]
      rw [show firstFreeKeyScan keys (fuel + 1) ret =
          firstFreeKeyScan keys fuel (wrapSucc ret) from by
        simp only [firstFreeKeyScan]
        rw [if_pos hmem]]
      by_cases hlast : i + 1 = keys.length
      · -- iterator wraps to the beginning
        rw [if_pos hlast]
        have h0 : 0 < keys.length := by omega
        by_cases hmax : ret = ckMax
        · -- candidate wraps too
          have hw : wrapSucc ret = 1 := by simp [wrapSucc, hmax]
          rw [hw]
          exact ih 1 0 h0 (fun j hj hj0 => absurd hj0 (by omega))
            (Or.inl (hbound _ (keys.get_mem 0 h0)).1) (by omega)
            (by norm_num [ckMax])
        · -- candidate now exceeds every key
          have hw : wrapSucc ret = ret + 1 := by simp [wrapSucc, hmax]
          rw [hw]
          refine ih (ret + 1) 0 h0
            (fun j hj hj0 => absurd hj0 (by omega)) (Or.inr ?_)
            (by omega) (by omega)
          intro k hk
          obtain ⟨⟨j, hj⟩, hkj⟩ := List.mem_iff_get.mp hk
          have hij : j ≤ i := by omega
          rcases lt_or_eq_of_le hij with hlt | heq
          · have := hJ1 j hj hlt
            omega
          · subst heq
            have hji : keys.get ⟨j, hj⟩ = ret := hrk.symm
            omega
      · -- iterator moves to the next entry
        rw [if_neg hlast]
        have hi1 : i + 1 < keys.length := by omega
        have hnext : keys.get ⟨i, hi⟩ < keys.get ⟨i + 1, hi1⟩ :=
          hpair ⟨i, hi⟩ ⟨i + 1, hi1⟩ (by simp)
        have hmax : ret ≠ ckMax := by
          have := (hbound _ (keys.get_mem (i + 1) hi1)).2
          omega
        have hw : wrapSucc ret = ret + 1 := by simp [wrapSucc, hmax]
        rw [hw]
        refine ih (ret + 1) (i + 1) hi1 ?_ (Or.inl (by omega))
          (by omega) (by omega)
        intro j hj hji
        rcases lt_or_eq_of_le (Nat.lt_succ_iff.mp hji) with hlt | heq
        · have := hJ1 j hj hlt
          omega
        · subst heq
          have hjr : keys.get ⟨j, hj⟩ = ret := hrk.symm
          omega
    · -- candidate misses the key at the iterator: both sides stop at ret
      have hnotmem : ret ∉ keys := by
        intro hmem
        obtain ⟨⟨j, hj⟩, hkj⟩ := List.mem_iff_get.mp hmem
        rcases Nat.lt_trichotomy j i with hlt | heq | hgt
        · have := hJ1 j hj hlt
          omega
        · subst heq
          exact hrk hkj.symm
        · rcases hJ2 with hle | hall
          · have hij := hpair ⟨i, hi⟩ ⟨j, hj⟩ (by simpa using hgt)
            have hlt2 : ret < keys.get ⟨j, hj⟩ := by
              rcases lt_or_eq_of_le hle with h' | h'
              · omega
              · exact absurd h' hrk
            omega
          · have := hall _ (keys.get_mem j hj)
            omega
      rw [show provideCacheKeyLoop keys (fuel + 1) ret i = some ret from by
        simp only [provideCacheKeyLoop, hget]
        rw [if_neg hrk]]
      rw [show firstFreeKeyScan keys (fuel + 1) ret = some ret from by
        simp only [firstFreeKeyScan]
        rw [if_neg hnotmem]]

/-- Claim C5: for every well-formed state of the ordered `by_cache_key`
index, `provide_cache_key` returns 1 on an empty map, raises
`OverflowException` on a map of the maximum positive size, and otherwise
returns a positive key not currently in use — the first free value found
by scanning forward from `last_cache_key` with wrap-around, per
`firstFreeKeyScan` — updating `last_cache_key` to the returned value. -/
theorem provide_cache_key_spec (keys : List Int) (last : Int)
    (hsort : List.Pairwise (· < ·) keys)
    (hbound : ∀ k ∈ keys, 1 ≤ k ∧ k ≤ ckMax)
    (hl1 : 1 ≤ last) (hl2 : last ≤ ckMax) :
    (keys = [] → provide_cache_key keys last = some (.ok (1, 1)))
    ∧ ((keys.length : Int) = ckMax →
        provide_cache_key keys last = some (.error .OverflowException))
    ∧ (keys ≠ [] → (keys.length : Int) < ckMax →
        ∃ r, provide_cache_key keys last = some (.ok (r, r))
          ∧ firstFreeKeyScan keys (keys.length + 1) last = some r
          ∧ r ∉ keys ∧ 1 ≤ r ∧ r ≤ ckMax) := by
  refine ⟨?_, ?_, ?_⟩
  · intro h
    subst h
    rfl
  · intro h
    have hlen0 : keys.length ≠ 0 := by
      simp only [ckMax] at h
      omega
    simp [provide_cache_key, hlen0, h]
  · intro hne hsz
    have hnd : keys.Nodup := hsort.imp (fun h => ne_of_lt h)
    have hlen0 : keys.length ≠ 0 := by
      simpa [List.length_eq_zero] using hne
    obtain ⟨r, hscan⟩ := scan_succeeds keys hnd hsz last hl1 hl2
    obtain ⟨hrnot, hrb⟩ := scan_some_props keys _ last r hscan
    refine ⟨r, ?_, hscan, hrnot, hrb hl1 hl2⟩
    unfold provide_cache_key
    rw [if_neg hlen0, if_neg (by omega : ¬((keys.length : Int) = ckMax))]
    rcases hfi : keys.findIdx? (· = last) with _ | i
    · -- `m_last_cache_key` is not a key in use: returned unchanged
      have hnm : last ∉ keys := by
        intro hmem
        have := List.findIdx?_eq_none_iff.mp hfi last hmem
        simp at this
      have hfirst : firstFreeKeyScan keys (keys.length + 1) last =
          some last := by
        simp only [firstFreeKeyScan]
        rw [if_neg hnm]
      rw [hscan] at hfirst
      obtain rfl : r = last := by simpa using hfirst
      rfl
    · -- the scan loop runs from the found position
      obtain ⟨hi, hp, -⟩ := List.findIdx?_eq_some_iff_getElem.mp hfi
      have hgi : keys.get ⟨i, hi⟩ = last := by simpa using hp
      have hpair := List.pairwise_iff_get.mp hsort
      have hloop := loop_eq_scan keys hsort hbound (keys.length + 1) last
        i hi
        (fun j hj hji => by
          have := hpair ⟨j, hj⟩ ⟨i, hi⟩ (by simpa using hji)
          omega)
        (Or.inl (le_of_eq hgi.symm)) hl1 hl2
      simp [hloop, hscan]

/-- Witness for the C5 theorem on the key set `{1, 2, 5}` with
`last_cache_key = 2`: the allocator returns 3, the first free key
scanning forward from 2. -/
theorem provide_cache_key_spec_witness :
    ∃ r, provide_cache_key [1, 2, 5] 2 = some (.ok (r, r))
      ∧ firstFreeKeyScan [1, 2, 5] ([1, 2, 5].length + 1) 2 = some r
      ∧ r ∉ [1, 2, 5] ∧ 1 ≤ r ∧ r ≤ ckMax :=
  (provide_cache_key_spec [1, 2, 5] 2 (by decide)
    (by decide) (by decide) (by decide)).2.2
    (by decide) (by decide)

end Sqloxx
